import Mathlib

/-!
# ModUploader — shallow embedding and verification

This file embeds the core of the ModUploader repository (a Steam Workshop
uploader for the game "Ascend from Nine Mountains") in Lean 4 and settles a
fixed list of claims about it.

Embedded components (translated from the TypeScript sources):
* `electron/main/config.ts` — constants (`config`).
* `electron/main/steam-types.ts` — visibility enum translation.
* `electron/main/mod-parser.ts` (the extended revision with tag detection
  and the five `getMetadata` syntax variants) — archive entry scanning,
  `formatModName`, `detectTagsFromModJs`, `parseModJsContent`,
  `parseMetadataObject`, `extractWithFallbackMethods`, `parsePackageJson`.
* `image-utils` (`compressPreviewImage`) — the quality/downscale search.
* `electron/main/steam.ts` — the shared in-flight initialization promise.
* `electron/main/ipc-handlers.ts` — the file-read whitelist, the
  `upload-to-workshop` and `get-workshop-items` handlers,
  `ensureSteamClientReady`, `normalizeWorkshopError`, `isSteamAuthError`.
* `src/components/ModEditor.tsx` — `handleSubmit` (form validation gating
  the upload IPC call).

JavaScript strings are modelled as `List Char` (ASCII-faithful: `toUpperCase`,
`toLowerCase`, `trim` and the `\w`/`\s` regex classes are modelled on their
ASCII behaviour, which covers every string the claims exercise).  JavaScript
regular expressions are executed by a small backtracking engine
(leftmost-match, greedy-first, with the empty-iteration exit rule JS uses for
quantifiers); the engine takes a fuel argument that strictly decreases on
every recursive call, and all claim-level evaluations happen at concrete
inputs with ample fuel.  Floating point arithmetic appears only in image
rescaling (`Math.round(w * scale)`), modelled by the exact rational value
computed in natural-number arithmetic.
-/

namespace ModUploader

/-! ## config.ts -/

/-- Steam App ID for "Ascend from Nine Mountains" (config.ts). -/
def appId : Nat := 3992260

/-- `config.steam.UgcItemVisibility` (config.ts): Public 0, FriendsOnly 1,
Private 2, Unlisted 3. -/
def UgcItemVisibility.Public : Nat := 0

def UgcItemVisibility.FriendsOnly : Nat := 1

def UgcItemVisibility.Private : Nat := 2

def UgcItemVisibility.Unlisted : Nat := 3

/-! ## JavaScript string primitives

Characters and strings are ASCII-modelled: `toUpperCase`/`toLowerCase` act on
`'a'..'z'`/`'A'..'Z'`, the regex class `\w` is `[A-Za-z0-9_]`, `\s` and
`String.prototype.trim` cover the ASCII whitespace characters. -/

/-- The regex class `\w` — `[A-Za-z0-9_]`. -/
def isWordChar (c : Char) : Bool :=
  ('a' ≤ c && c ≤ 'z') || ('A' ≤ c && c ≤ 'Z') || ('0' ≤ c && c ≤ '9') ||
    c == '_'

/-- The regex class `\s` (ASCII part): space, tab, LF, VT, FF, CR. -/
def isSpaceJS (c : Char) : Bool :=
  c == ' ' || c == '\t' || c == '\n' || c == '\x0b' || c == '\x0c' ||
    c == '\r'

/-- `String.prototype.trim` on a character list. -/
def jsTrim (l : List Char) : List Char :=
  ((l.dropWhile isSpaceJS).reverse.dropWhile isSpaceJS).reverse

/-- Leftmost index at which `needle` occurs in `hay`
(`String.prototype.indexOf`, `none` for -1). -/
def jsIndexOf (hay needle : List Char) : Option Nat :=
  go hay 0
where
  go : List Char → Nat → Option Nat
    | [], i => if needle = [] then some i else none
    | c :: rest, i =>
      if needle.isPrefixOf (c :: rest) then some i else go rest (i + 1)

/-- `String.prototype.includes`. -/
def jsIncludes (hay needle : List Char) : Bool :=
  (jsIndexOf hay needle).isSome

/-- ASCII `toLowerCase`, applied characterwise. -/
def jsToLower (l : List Char) : List Char := l.map Char.toLower

/-! ## steam-types.ts — visibility translation -/

/-- `visibilityToUgcVisibility` (steam-types.ts:41-55): switch over the
visibility string with a `default` arm returning `Private`. -/
def visibilityToUgcVisibility (visibility : String) : Nat :=
  if visibility = "public" then UgcItemVisibility.Public
  else if visibility = "friends" then UgcItemVisibility.FriendsOnly
  else if visibility = "private" then UgcItemVisibility.Private
  else if visibility = "unlisted" then UgcItemVisibility.Unlisted
  else UgcItemVisibility.Private

/-- `ugcVisibilityToString` (steam-types.ts:58-72): switch over the integer
code with a `default` arm returning `"private"`. -/
def ugcVisibilityToString (visibility : Nat) : String :=
  if visibility = UgcItemVisibility.Public then "public"
  else if visibility = UgcItemVisibility.FriendsOnly then "friends"
  else if visibility = UgcItemVisibility.Private then "private"
  else if visibility = UgcItemVisibility.Unlisted then "unlisted"
  else "private"

/-- JavaScript falsy-coalescing on an optional string:
`x || 'dflt'` — `undefined` and the empty string both fall through to the
default.  Used by the upload handler (`visibility || 'private'`,
ipc-handlers.ts:393-395). -/
def jsOrElse (x : Option String) (dflt : String) : String :=
  match x with
  | none => dflt
  | some s => if s = "" then dflt else s

/-- C7: round trip of the four visibility values through the platform codes,
and the fail-closed default. -/
theorem visibility_roundtrip_and_default
    (s : String) (n : Nat)
    (hs : s ∉ ["public", "friends", "private", "unlisted"])
    (hn : n ∉ [0, 1, 2, 3]) :
    (∀ v ∈ ["public", "friends", "private", "unlisted"],
        ugcVisibilityToString (visibilityToUgcVisibility v) = v) ∧
    (∀ c ∈ [0, 1, 2, 3],
        visibilityToUgcVisibility (ugcVisibilityToString c) = c) ∧
    visibilityToUgcVisibility s = UgcItemVisibility.Private ∧
    visibilityToUgcVisibility s ≠ UgcItemVisibility.Public ∧
    ugcVisibilityToString n = "private" ∧
    ugcVisibilityToString n ≠ "public" ∧
    visibilityToUgcVisibility (jsOrElse none "private") =
      UgcItemVisibility.Private ∧
    visibilityToUgcVisibility (jsOrElse (some "") "private") =
      UgcItemVisibility.Private := by
  simp only [List.mem_cons, List.mem_singleton, not_or] at hs hn
  obtain ⟨hs1, hs2, hs3, hs4, -⟩ := hs
  obtain ⟨hn1, hn2, hn3, hn4, -⟩ := hn
  refine ⟨?_, ?_, ?_, ?_, ?_, ?_, ?_, ?_⟩ <;>
    simp [visibilityToUgcVisibility, ugcVisibilityToString, jsOrElse,
      UgcItemVisibility.Public, UgcItemVisibility.FriendsOnly,
      UgcItemVisibility.Private, UgcItemVisibility.Unlisted,
      hs1, hs2, hs3, hs4, hn1, hn2, hn3, hn4]

/-- Witness for C7 at `s = "bogus"`, `n = 7`. -/
theorem visibility_roundtrip_and_default_witness :
    (∀ v ∈ ["public", "friends", "private", "unlisted"],
        ugcVisibilityToString (visibilityToUgcVisibility v) = v) ∧
    (∀ c ∈ [0, 1, 2, 3],
        visibilityToUgcVisibility (ugcVisibilityToString c) = c) ∧
    visibilityToUgcVisibility "bogus" = UgcItemVisibility.Private ∧
    visibilityToUgcVisibility "bogus" ≠ UgcItemVisibility.Public ∧
    ugcVisibilityToString 7 = "private" ∧
    ugcVisibilityToString 7 ≠ "public" ∧
    visibilityToUgcVisibility (jsOrElse none "private") =
      UgcItemVisibility.Private ∧
    visibilityToUgcVisibility (jsOrElse (some "") "private") =
      UgcItemVisibility.Private :=
  visibility_roundtrip_and_default "bogus" 7 (by decide) (by decide)

/-! ## mod-parser — `formatModName` -/

/-- Stage 1 of `formatModName`: `.replace(/[-_]/g, ' ')` — every `-` or `_`
character becomes one space. -/
def dashUnderscoreToSpace (c : Char) : Char :=
  if c = '-' ∨ c = '_' then ' ' else c

/-- Stage 2 of `formatModName`: `.replace(/\b\w/g, c => c.toUpperCase())`.
A word character is uppercased exactly when the preceding character of the
original string is not a word character (or the match is at the start);
the boolean argument carries "previous character was a word character". -/
def upperAtWordStarts (prevWord : Bool) : List Char → List Char
  | [] => []
  | c :: rest =>
    (if ¬prevWord ∧ isWordChar c then c.toUpper else c) ::
      upperAtWordStarts (isWordChar c) rest

/-- `formatModName` (mod-parser.ts:9-16):
`if (!name) return name; return name.replace(/[-_]/g, ' ')
.replace(/\b\w/g, c => c.toUpperCase()).trim()`. -/
def formatModName (name : List Char) : List Char :=
  if name = [] then name
  else jsTrim (upperAtWordStarts false (name.map dashUnderscoreToSpace))

/-- Spec-level capitalization: pair every character with its predecessor (a
space standing in for "start of string") and uppercase the word characters
whose predecessor is not a word character. -/
def capitalizeWordStarts (l : List Char) : List Char :=
  (l.zip (' ' :: l)).map fun cp =>
    if isWordChar cp.1 ∧ ¬ isWordChar cp.2 then cp.1.toUpper else cp.1

/-- Modelled from the spec's words for C9: replace every maximal run of
`-`/`_` by a single space (the boolean records whether the previous
character belonged to such a run). -/
def collapseRunsAux (prevDash : Bool) : List Char → List Char
  | [] => []
  | c :: rest =>
    if c = '-' ∨ c = '_' then
      (if prevDash then [] else [' ']) ++ collapseRunsAux true rest
    else c :: collapseRunsAux false rest

/-- Modelled from the spec's words for C9: every maximal run of `-`/`_`
becomes a single space. -/
def collapseRunsToSpace (l : List Char) : List Char :=
  collapseRunsAux false l

/-- Modelled from the spec's words for C9 (the claimed title derivation):
runs of `-`/`_` collapsed to one space, first letter of every word
uppercased, surrounding whitespace trimmed. -/
def claimedTitle (name : List Char) : List Char :=
  jsTrim (capitalizeWordStarts (collapseRunsToSpace name))

theorem upperAtWordStarts_zip (p : Char) (l : List Char) :
    upperAtWordStarts (isWordChar p) l =
      (l.zip (p :: l)).map fun cp =>
        if isWordChar cp.1 ∧ ¬ isWordChar cp.2 then cp.1.toUpper else cp.1 := by
  induction l generalizing p with
  | nil => rfl
  | cons c rest ih =>
    simp only [upperAtWordStarts, List.zip_cons_cons, List.map_cons,
      ih c]
    by_cases hw : isWordChar c = true <;> by_cases hp : isWordChar p = true <;>
      simp [hw, hp]

/-- C9 counterexample: on `"a--b"` the code produces `"A  B"` (each dash
becomes its own space) whereas the claim's run-collapsing rule produces
`"A B"`. -/
theorem formatModName_counterexample :
    formatModName "a--b".data = "A  B".data ∧
    claimedTitle "a--b".data = "A B".data ∧
    formatModName "a--b".data ≠ claimedTitle "a--b".data := by
  refine ⟨by decide, by decide, by decide⟩

/-- C9 (amended): the derived title equals the name with **each** `-`/`_`
character replaced by a space (a run of k becomes k spaces), the first
letter of every resulting word uppercased, and surrounding whitespace
trimmed. -/
theorem formatModName_spec (name : List Char) :
    formatModName name =
      jsTrim (capitalizeWordStarts (name.map dashUnderscoreToSpace)) := by
  by_cases h : name = []
  · subst h; rfl
  · have hspace : (false : Bool) = isWordChar ' ' := by decide
    simp only [formatModName, if_neg h, capitalizeWordStarts, hspace,
      upperAtWordStarts_zip]

/-! ## image-utils — `compressPreviewImage`

The Electron `nativeImage` codec is the opaque capability: an `ImageModel`
supplies the facts the algorithm consumes — file existence, byte size,
decodability, pixel dimensions, and the JPEG-encoded size at given
dimensions and quality.  `Math.round(x)` on the non-negative values produced
here is `⌊x + 1/2⌋`, computed exactly over `ℚ`. -/

/-- `MAX_FILE_SIZE = 1024 * 1024` (image-utils). -/
def MAX_FILE_SIZE : Nat := 1024 * 1024

/-- `MIN_QUALITY = 10` (image-utils). -/
def MIN_QUALITY : Nat := 10

/-- `QUALITY_STEP = 5` (image-utils). -/
def QUALITY_STEP : Nat := 5

/-- `Math.round(a / b)` for non-negative `a` and positive `b`, computed
exactly: `⌊a/b + 1/2⌋ = (2a + b) / (2b)` in natural division. -/
def mathRoundDiv (a b : Nat) : Nat := (2 * a + b) / (2 * b)

/-- The initial proportional downscale (image-utils): if either dimension
exceeds 1920, scale both by `scale = min(1920/width, 1920/height)` and
round.  Since for positive dimensions
`w * min(1920/w, 1920/h) = 1920*w / max(w, h)`, the rounded results are
computed exactly as `round(1920*d / max(w, h))`. -/
def scaleToMaxDimension (w h : Nat) : Nat × Nat :=
  if 1920 < w ∨ 1920 < h then
    (mathRoundDiv (1920 * w) (max w h), mathRoundDiv (1920 * h) (max w h))
  else (w, h)

/-- The secondary geometric downscale by factor 0.7 (image-utils):
`Math.round(d * 0.7)` computed exactly as `round(7d / 10)`. -/
def downscale7 (w h : Nat) : Nat × Nat :=
  (mathRoundDiv (7 * w) 10, mathRoundDiv (7 * h) 10)

/-- Opaque image/codec facts consumed by `compressPreviewImage`. -/
structure ImageModel where
  fileOnDisk : Bool
  originalSize : Nat
  loadFailed : Bool
  width : Nat
  height : Nat
  encode : Nat → Nat → Nat → Nat

/-- Encoded size at a dimension pair (`img.encode` uncurried). -/
def encAt (img : ImageModel) (d : Nat × Nat) (q : Nat) : Nat :=
  img.encode d.1 d.2 q

/-- The dimensions after the initial proportional downscale. -/
def dim1 (img : ImageModel) : Nat × Nat :=
  scaleToMaxDimension img.width img.height

/-- The dimensions after the additional 0.7 downscale. -/
def dim2 (img : ImageModel) : Nat × Nat :=
  downscale7 (dim1 img).1 (dim1 img).2

/-- The `while (quality >= MIN_QUALITY)` loop of image-utils: encode at the
current quality, stop as soon as the buffer fits, otherwise drop the quality
by `QUALITY_STEP`.  Returns the final value of the `quality` variable and
the last buffer produced (the code keeps the last oversized buffer when the
loop exhausts).  The first argument is fuel bounding the iteration count; it
strictly decreases and every use supplies at least the iteration count. -/
def runQualityLoop : Nat → (Nat → Nat) → Nat → Option Nat → Nat × Option Nat
  | 0, _, q, last => (q, last)
  | fuel + 1, enc, q, last =>
    if MIN_QUALITY ≤ q then
      let len := enc q
      if len ≤ MAX_FILE_SIZE then (q, some len)
      else runQualityLoop fuel enc (q - QUALITY_STEP) (some len)
    else (q, last)

/-- Failure reasons of `compressPreviewImage` (the code renders these as
message strings; `tooLarge` carries the byte count the message reports
via `compressedBuffer?.length || 0`). -/
inductive CompressError where
  | fileNotFound
  | loadFailed
  | tooLarge (bestBytes : Nat)
deriving DecidableEq

/-- `ImageCompressionResult` (src/types.ts), with the error message
abstracted to `CompressError`. -/
structure ImageCompressionResult where
  success : Bool
  originalPath : String
  compressedPath : Option String
  originalSize : Nat
  compressedSize : Option Nat
  quality : Option Nat
  wasCompressed : Bool
  error : Option CompressError
deriving DecidableEq

/-- The `if (!compressedBuffer || compressedBuffer.length > MAX_FILE_SIZE)`
test after the first quality loop. -/
def secondPassNeeded (r : Nat × Option Nat) : Bool :=
  match r.2 with
  | none => true
  | some len => decide (MAX_FILE_SIZE < len)

/-- Both quality loops of image-utils: the 95-down search at the
proportionally scaled dimensions, then — only when that stayed over budget —
the 85-down search after the extra 0.7 downscale.  Returns the final
`(quality, compressedBuffer)` pair. -/
def compressLoops (img : ImageModel) : Nat × Option Nat :=
  let p1 := runQualityLoop 95 (encAt img (dim1 img)) 95 none
  if secondPassNeeded p1 then runQualityLoop 85 (encAt img (dim2 img)) 85 p1.2
  else p1

/-- The tail of `compressPreviewImage` after the early returns: the final
fit check and the success/failure record. -/
def compressMain (img : ImageModel) (imagePath tempPath : String) :
    ImageCompressionResult :=
  match (compressLoops img).2 with
  | none =>
    ⟨false, imagePath, none, img.originalSize, none, none, false,
      some (.tooLarge 0)⟩
  | some len =>
    if MAX_FILE_SIZE < len then
      ⟨false, imagePath, none, img.originalSize, none, none, false,
        some (.tooLarge len)⟩
    else
      ⟨true, imagePath, some tempPath, img.originalSize, some len,
        some (compressLoops img).1, true, none⟩

/-- `compressPreviewImage` (image-utils): size gate, proportional downscale,
quality search from 95, one 0.7 downscale, quality search from 85, and the
final fit check before writing the temp file. -/
def compressPreviewImage (img : ImageModel) (imagePath tempPath : String) :
    ImageCompressionResult :=
  if img.fileOnDisk = false then
    ⟨false, imagePath, none, 0, none, none, false, some .fileNotFound⟩
  else if img.originalSize ≤ MAX_FILE_SIZE then
    ⟨true, imagePath, some imagePath, img.originalSize,
      some img.originalSize, none, false, none⟩
  else if img.loadFailed then
    ⟨false, imagePath, none, img.originalSize, none, none, false,
      some .loadFailed⟩
  else compressMain img imagePath tempPath

/-- The claim's quality schedule for the first pass: 95 down to 10 in steps
of 5. -/
def qualitySchedule95 : List Nat :=
  [95, 90, 85, 80, 75, 70, 65, 60, 55, 50, 45, 40, 35, 30, 25, 20, 15, 10]

/-- The claim's quality schedule for the second pass: 85 down to 10. -/
def qualitySchedule85 : List Nat :=
  [85, 80, 75, 70, 65, 60, 55, 50, 45, 40, 35, 30, 25, 20, 15, 10]

/-- Spec-side search along an explicit schedule: first quality whose encoding
fits wins; an exhausted schedule ends with the quality variable stepped past
the last entry and the last oversized buffer retained. -/
def searchSchedule (enc : Nat → Nat) : List Nat → Nat × Option Nat
  | [] => (0, none)
  | [q] =>
    if enc q ≤ MAX_FILE_SIZE then (q, some (enc q))
    else (q - QUALITY_STEP, some (enc q))
  | q :: q' :: rest =>
    if enc q ≤ MAX_FILE_SIZE then (q, some (enc q))
    else searchSchedule enc (q' :: rest)

set_option maxRecDepth 8000 in
theorem runQualityLoop_95 (enc : Nat → Nat) :
    runQualityLoop 95 enc 95 none = searchSchedule enc qualitySchedule95 := by
  norm_num [runQualityLoop, searchSchedule, qualitySchedule95, MIN_QUALITY,
    QUALITY_STEP]

set_option maxRecDepth 8000 in
theorem runQualityLoop_85 (enc : Nat → Nat) (last : Option Nat) :
    runQualityLoop 85 enc 85 last = searchSchedule enc qualitySchedule85 := by
  norm_num [runQualityLoop, searchSchedule, qualitySchedule85, MIN_QUALITY,
    QUALITY_STEP]

theorem searchSchedule_of_all_gt (enc : Nat → Nat) (l : List Nat)
    (hne : l ≠ []) (h : ∀ q ∈ l, MAX_FILE_SIZE < enc q) :
    searchSchedule enc l =
      (l.getLast hne - QUALITY_STEP, some (enc (l.getLast hne))) := by
  induction l with
  | nil => exact absurd rfl hne
  | cons a t ih =>
    match t with
    | [] =>
      have ha := h a (by simp)
      simp [searchSchedule, Nat.not_le.mpr ha]
    | b :: t' =>
      have ha := h a (by simp)
      have := ih (by simp) (fun q hq => h q (by simp [hq]))
      simp only [searchSchedule, if_neg (Nat.not_le.mpr ha), this]
      simp [List.getLast]

/-- C2: `compressPreviewImage` never reports a modified success whose output
exceeds `MAX_FILE_SIZE`; the quality search follows 95,90,…,10 and then,
after the single 0.7 downscale, 85,80,…,10; and when every attempt stays
over budget the result is a failure reporting the final (best) attempted
size, which under the monotonicity hypotheses on the codec is the minimum
over all attempts. -/
theorem compress_never_oversized (img : ImageModel) (ip tp : String)
    (hq1 : ∀ a ∈ qualitySchedule95, ∀ b ∈ qualitySchedule95, a ≤ b →
      encAt img (dim1 img) a ≤ encAt img (dim1 img) b)
    (hq2 : ∀ a ∈ qualitySchedule85, ∀ b ∈ qualitySchedule85, a ≤ b →
      encAt img (dim2 img) a ≤ encAt img (dim2 img) b)
    (hd : ∀ q ∈ qualitySchedule85,
      encAt img (dim2 img) q ≤ encAt img (dim1 img) q) :
    ((compressPreviewImage img ip tp).success = true →
      (compressPreviewImage img ip tp).wasCompressed = true →
      ∃ n, (compressPreviewImage img ip tp).compressedSize = some n ∧
        n ≤ MAX_FILE_SIZE ∧ (compressPreviewImage img ip tp).error = none) ∧
    ((∀ q ∈ qualitySchedule95, MAX_FILE_SIZE < encAt img (dim1 img) q) →
      (∀ q ∈ qualitySchedule85, MAX_FILE_SIZE < encAt img (dim2 img) q) →
      img.fileOnDisk = true → MAX_FILE_SIZE < img.originalSize →
      img.loadFailed = false →
      (compressPreviewImage img ip tp).success = false ∧
      (compressPreviewImage img ip tp).error =
        some (.tooLarge (encAt img (dim2 img) 10)) ∧
      (∀ q ∈ qualitySchedule95,
        encAt img (dim2 img) 10 ≤ encAt img (dim1 img) q) ∧
      (∀ q ∈ qualitySchedule85,
        encAt img (dim2 img) 10 ≤ encAt img (dim2 img) q)) ∧
    (∀ enc : Nat → Nat, ∀ last : Option Nat,
      runQualityLoop 95 enc 95 none = searchSchedule enc qualitySchedule95 ∧
      runQualityLoop 85 enc 85 last = searchSchedule enc qualitySchedule85) := by
  have hmain : ∀ a b : String, (compressMain img a b).success = true →
      ∃ n, (compressMain img a b).compressedSize = some n ∧
        n ≤ MAX_FILE_SIZE ∧ (compressMain img a b).error = none := by
    intro a b hs
    unfold compressMain at hs ⊢
    split at hs
    · simp at hs
    · next len heq =>
      by_cases hlen : MAX_FILE_SIZE < len
      · simp [hlen] at hs
      · exact ⟨len, by simp [heq, hlen, Nat.not_lt.mp hlen]⟩
  refine ⟨?_, ?_, fun enc last => ⟨runQualityLoop_95 enc, runQualityLoop_85 enc last⟩⟩
  · intro hs hw
    by_cases h1 : img.fileOnDisk = false
    · simp [compressPreviewImage, h1] at hs
    · by_cases h2 : img.originalSize ≤ MAX_FILE_SIZE
      · simp [compressPreviewImage, h1, h2] at hw
      · by_cases h3 : img.loadFailed = true
        · simp [compressPreviewImage, h1, h2, h3] at hs
        · have hs' : (compressMain img ip tp).success = true := by
            simpa [compressPreviewImage, h1, h2, h3] using hs
          simpa [compressPreviewImage, h1, h2, h3] using hmain ip tp hs'
  · intro hall1 hall2 hdisk hbig hload
    have hne95 : qualitySchedule95 ≠ [] := by simp [qualitySchedule95]
    have hne85 : qualitySchedule85 ≠ [] := by simp [qualitySchedule85]
    have hlast95 : qualitySchedule95.getLast hne95 = 10 := by
      simp [qualitySchedule95]
    have hlast85 : qualitySchedule85.getLast hne85 = 10 := by
      simp [qualitySchedule85]
    have hfail1 : runQualityLoop 95 (encAt img (dim1 img)) 95 none =
        (5, some (encAt img (dim1 img) 10)) := by
      rw [runQualityLoop_95, searchSchedule_of_all_gt _ _ hne95 hall1, hlast95]
      rfl
    have hfail2 : ∀ last, runQualityLoop 85 (encAt img (dim2 img)) 85 last =
        (5, some (encAt img (dim2 img) 10)) := by
      intro last
      rw [runQualityLoop_85, searchSchedule_of_all_gt _ _ hne85 hall2, hlast85]
      rfl
    have h10a : MAX_FILE_SIZE < encAt img (dim1 img) 10 :=
      hall1 10 (by simp [qualitySchedule95])
    have h10b : MAX_FILE_SIZE < encAt img (dim2 img) 10 :=
      hall2 10 (by simp [qualitySchedule85])
    have hge10 : ∀ x ∈ qualitySchedule85, 10 ≤ x := by decide
    have htop : ∀ x ∈ qualitySchedule95, x ∉ qualitySchedule85 →
        x = 95 ∨ x = 90 := by decide
    have hmin95 : ∀ q ∈ qualitySchedule95,
        encAt img (dim2 img) 10 ≤ encAt img (dim1 img) q := by
      intro q hq
      by_cases hq85 : q ∈ qualitySchedule85
      · exact le_trans
          (hq2 10 (by decide) q hq85 (hge10 q hq85)) (hd q hq85)
      · have h85in95 : (85 : Nat) ∈ qualitySchedule95 := by decide
        have h85in85 : (85 : Nat) ∈ qualitySchedule85 := by decide
        have h1 : encAt img (dim2 img) 10 ≤ encAt img (dim2 img) 85 :=
          hq2 10 (by decide) 85 h85in85 (by omega)
        have h2 : encAt img (dim2 img) 85 ≤ encAt img (dim1 img) 85 :=
          hd 85 h85in85
        have h3 : encAt img (dim1 img) 85 ≤ encAt img (dim1 img) q := by
          refine hq1 85 h85in95 q hq ?_
          rcases htop q hq hq85 with h | h <;> omega
        omega
    have hmin85 : ∀ q ∈ qualitySchedule85,
        encAt img (dim2 img) 10 ≤ encAt img (dim2 img) q := by
      intro q hq
      exact hq2 10 (by decide) q hq (hge10 q hq)
    refine ⟨?_, ?_, hmin95, hmin85⟩ <;>
      simp [compressPreviewImage, compressMain, compressLoops,
        secondPassNeeded, hdisk, Nat.not_le.mpr hbig, hload,
        hfail1, hfail2, h10a, h10b]

/-- Witness for C2: a 2000×1000, 3 MB image whose encoder always produces
`MAX_FILE_SIZE + width + quality` bytes (monotone, never fitting). -/
def witnessImage : ImageModel :=
  ⟨true, 3000000, false, 2000, 1000, fun w _ q => MAX_FILE_SIZE + w + q⟩

theorem compress_never_oversized_witness :
    ((compressPreviewImage witnessImage "p.png" "t.jpg").success = true →
      (compressPreviewImage witnessImage "p.png" "t.jpg").wasCompressed = true →
      ∃ n, (compressPreviewImage witnessImage "p.png" "t.jpg").compressedSize =
          some n ∧ n ≤ MAX_FILE_SIZE ∧
        (compressPreviewImage witnessImage "p.png" "t.jpg").error = none) ∧
    ((∀ q ∈ qualitySchedule95,
        MAX_FILE_SIZE < encAt witnessImage (dim1 witnessImage) q) →
      (∀ q ∈ qualitySchedule85,
        MAX_FILE_SIZE < encAt witnessImage (dim2 witnessImage) q) →
      witnessImage.fileOnDisk = true →
      MAX_FILE_SIZE < witnessImage.originalSize →
      witnessImage.loadFailed = false →
      (compressPreviewImage witnessImage "p.png" "t.jpg").success = false ∧
      (compressPreviewImage witnessImage "p.png" "t.jpg").error =
        some (.tooLarge (encAt witnessImage (dim2 witnessImage) 10)) ∧
      (∀ q ∈ qualitySchedule95,
        encAt witnessImage (dim2 witnessImage) 10 ≤
          encAt witnessImage (dim1 witnessImage) q) ∧
      (∀ q ∈ qualitySchedule85,
        encAt witnessImage (dim2 witnessImage) 10 ≤
          encAt witnessImage (dim2 witnessImage) q)) ∧
    (∀ enc : Nat → Nat, ∀ last : Option Nat,
      runQualityLoop 95 enc 95 none = searchSchedule enc qualitySchedule95 ∧
      runQualityLoop 85 enc 85 last = searchSchedule enc qualitySchedule85) :=
  compress_never_oversized witnessImage "p.png" "t.jpg"
    (by decide) (by decide) (by decide)

/-! ## steam.ts — shared in-flight initialization

`initializeSteam` (steam.ts:28-40) runs on the single-threaded event loop:

```
if (initializationPromise) return initializationPromise;
initializationPromise = doInitializeSteam(mainWindow);
const result = await initializationPromise; ...
```

The check of `initializationPromise` and its assignment happen with no
`await` between them, so each invocation's entry is one atomic step of the
event loop.  The model keeps the module state (`initializationPromise` as an
optional promise id, a counter of started `doInitializeSteam` sequences) and
gives each caller the id of the promise it awaits; a resolution step
delivers the promise's outcome to every caller holding its id and clears the
in-flight slot. -/

/-- Module-level state of steam.ts relevant to initialization. -/
structure InitModuleState where
  inflight : Option Nat
  nextPromiseId : Nat
  sdkInitSequences : Nat
deriving DecidableEq

/-- One atomic entry into `initializeSteam`: either join the in-flight
promise or start (and record) a new `doInitializeSteam` sequence. -/
def enterInitializeSteam (s : InitModuleState) : InitModuleState × Nat :=
  match s.inflight with
  | some p => (s, p)
  | none =>
    (⟨some s.nextPromiseId, s.nextPromiseId + 1, s.sdkInitSequences + 1⟩,
      s.nextPromiseId)

/-- `n` concurrent invocations entering `initializeSteam` before the
in-flight attempt resolves; returns the final module state and, in order,
the promise id each caller awaits. -/
def enterMany (s : InitModuleState) : Nat → InitModuleState × List Nat
  | 0 => (s, [])
  | n + 1 =>
    let (s', p) := enterInitializeSteam s
    let (s'', ps) := enterMany s' n
    (s'', p :: ps)

/-- Resolution of the in-flight attempt (`initializationPromise = null`
after the shared await): every caller holding the resolved promise's id
receives the outcome `result`. -/
def resolveInflight (s : InitModuleState) (result : Bool) :
    InitModuleState × (Nat → Option Bool) :=
  match s.inflight with
  | none => (s, fun _ => none)
  | some p =>
    ({ s with inflight := none }, fun q => if q = p then some result else none)

theorem enterMany_inflight (s : InitModuleState) (n : Nat) (hn : 1 ≤ n)
    (h : s.inflight = none) :
    (enterMany s n).1.sdkInitSequences = s.sdkInitSequences + 1 ∧
    (enterMany s n).2 = List.replicate n s.nextPromiseId ∧
    (enterMany s n).1.inflight = some s.nextPromiseId := by
  obtain ⟨m, rfl⟩ : ∃ m, n = m + 1 := ⟨n - 1, by omega⟩
  clear hn
  have hstep : enterInitializeSteam s =
      (⟨some s.nextPromiseId, s.nextPromiseId + 1, s.sdkInitSequences + 1⟩,
        s.nextPromiseId) := by
    simp [enterInitializeSteam, h]
  have hjoin : ∀ k (t : InitModuleState) (p : Nat), t.inflight = some p →
      (enterMany t k).1 = t ∧ (enterMany t k).2 = List.replicate k p := by
    intro k
    induction k with
    | zero => intro t p _; simp [enterMany]
    | succ k ih =>
      intro t p hp
      have hone : enterInitializeSteam t = (t, p) := by
        simp [enterInitializeSteam, hp]
      obtain ⟨h1, h2⟩ := ih t p hp
      simp [enterMany, hone, h1, h2, List.replicate_succ]
  obtain ⟨h1, h2⟩ := hjoin m
    ⟨some s.nextPromiseId, s.nextPromiseId + 1, s.sdkInitSequences + 1⟩
    s.nextPromiseId rfl
  simp [enterMany, hstep, h1, h2, List.replicate_succ]

/-- C6: while the client is uninitialized, `n ≥ 1` concurrent invocations of
`initializeSteam` start exactly one underlying SDK initialization sequence;
every caller awaits the same promise and, when it resolves, every caller
receives that single attempt's outcome. -/
theorem initializeSteam_single_inflight (s : InitModuleState) (n : Nat)
    (result : Bool) (hn : 1 ≤ n) (h : s.inflight = none) :
    (enterMany s n).1.sdkInitSequences = s.sdkInitSequences + 1 ∧
    (∀ p ∈ (enterMany s n).2, p = s.nextPromiseId) ∧
    (enterMany s n).2.length = n ∧
    (∀ p ∈ (enterMany s n).2,
      (resolveInflight (enterMany s n).1 result).2 p = some result) := by
  obtain ⟨h1, h2, h3⟩ := enterMany_inflight s n hn h
  refine ⟨h1, ?_, by simp [h2], ?_⟩
  · intro p hp
    rw [h2] at hp
    exact List.eq_of_mem_replicate hp
  · intro p hp
    rw [h2] at hp
    have hp' := List.eq_of_mem_replicate hp
    simp [resolveInflight, h3, hp']

/-- Witness for C6: three concurrent callers from the pristine module state
(`initializationPromise = null`, no sequences started). -/
theorem initializeSteam_single_inflight_witness :
    (enterMany ⟨none, 0, 0⟩ 3).1.sdkInitSequences = 0 + 1 ∧
    (∀ p ∈ (enterMany ⟨none, 0, 0⟩ 3).2, p = 0) ∧
    (enterMany ⟨none, 0, 0⟩ 3).2.length = 3 ∧
    (∀ p ∈ (enterMany ⟨none, 0, 0⟩ 3).2,
      (resolveInflight (enterMany ⟨none, 0, 0⟩ 3).1 true).2 p = some true) :=
  initializeSteam_single_inflight ⟨none, 0, 0⟩ 3 true (by decide) rfl

/-! ## ipc-handlers.ts — error classification and client readiness

Exceptions are modelled with `Except String`; the string is the
`Error.message` of the thrown error. -/

/-- `isSteamAuthError` (ipc-handlers.ts:68-74). -/
def isSteamAuthError (msg : String) : Bool :=
  jsIncludes (jsToLower msg.data) "user not logged on".data ||
  jsIncludes (jsToLower msg.data) "not logged in".data

/-- The fixed message thrown when the client is not connected
(ipc-handlers.ts:97-99, 104-108). -/
def steamNotConnectedMsg : String :=
  "Steam is not connected. Please make sure Steam is running and logged in."

/-- The fixed message substituted for auth failures
(ipc-handlers.ts:80-84). -/
def notLoggedInMsg : String :=
  "Steam user is not logged in. Open Steam and sign in to the account that owns \"Ascend from Nine Mountains\", then retry."

/-- `normalizeWorkshopError` (ipc-handlers.ts:76-87). -/
def normalizeWorkshopError (msg : String) : String :=
  if isSteamAuthError msg then notLoggedInMsg else msg

/-- The Steam-side facts `ensureSteamClientReady` consumes: whether a ready
client is present at entry, what `initializeSteam` resolves to, whether the
re-fetched client is ready, and whether the `localplayer` liveness probe
(`getSteamId`/`getName`) throws (with which message). -/
structure SteamEnv where
  clientReadyBefore : Bool
  initializeResult : Bool
  clientReadyAfter : Bool
  localplayerProbe : Option String

/-- `ensureSteamClientReady` (ipc-handlers.ts:89-118): lazily initialize if
needed, re-check readiness, then probe the local player, normalizing a probe
failure. -/
def ensureSteamClientReady (env : SteamEnv) : Except String Unit :=
  if env.clientReadyBefore = false ∧ env.initializeResult = false then
    .error steamNotConnectedMsg
  else if (env.clientReadyBefore || env.clientReadyAfter) = false then
    .error steamNotConnectedMsg
  else
    match env.localplayerProbe with
    | some e => .error (normalizeWorkshopError e)
    | none => .ok ()

theorem ensureSteamClientReady_error_nonempty (env : SteamEnv) (e : String)
    (hprobe : ∀ pe, env.localplayerProbe = some pe → pe ≠ "")
    (h : ensureSteamClientReady env = .error e) : e ≠ "" := by
  unfold ensureSteamClientReady at h
  have hfixed : steamNotConnectedMsg ≠ "" := by decide
  have hauth : notLoggedInMsg ≠ "" := by decide
  by_cases h1 : env.clientReadyBefore = false ∧ env.initializeResult = false
  · rw [if_pos h1] at h
    simp only [Except.error.injEq] at h
    rw [← h]; exact hfixed
  · rw [if_neg h1] at h
    by_cases h2 : (env.clientReadyBefore || env.clientReadyAfter) = false
    · rw [if_pos h2] at h
      simp only [Except.error.injEq] at h
      rw [← h]; exact hfixed
    · rw [if_neg h2] at h
      rcases hpe : env.localplayerProbe with - | pe
      · rw [hpe] at h
        exact absurd h (by simp)
      · rw [hpe] at h
        simp only [Except.error.injEq] at h
        rw [← h]
        unfold normalizeWorkshopError
        split
        · exact hauth
        · exact hprobe pe hpe

/-! ## ipc-handlers.ts — `get-workshop-items` -/

/-- A raw workshop item as produced by the SDK query
(ipc-handlers.ts:492-505); the optional `statistics` counters are flattened
to optional fields, 64-bit counters as `Nat`. -/
structure RawWorkshopItem where
  publishedFileId : Nat
  title : String
  description : String
  tags : Option (List String)
  visibility : Nat
  timeCreated : Nat
  timeUpdated : Nat
  numSubscriptions : Option Nat
  numFavorites : Option Nat
  numUniqueWebsiteViews : Option Nat

/-- `WorkshopItem` (src/types.ts). -/
structure WorkshopItem where
  publishedFileId : String
  title : String
  description : String
  tags : List String
  visibility : String
  createdDate : Nat
  updatedDate : Nat
  subscriptions : Nat
  favorited : Nat
  views : Nat
deriving DecidableEq

/-- The per-item normalization of the `get-workshop-items` handler
(ipc-handlers.ts:506-519): id rendered as a string, visibility decoded,
missing statistics defaulted to zero. -/
def mapRawItem (it : RawWorkshopItem) : WorkshopItem :=
  ⟨toString it.publishedFileId, it.title, it.description, it.tags.getD [],
    ugcVisibilityToString it.visibility, it.timeCreated, it.timeUpdated,
    it.numSubscriptions.getD 0, it.numFavorites.getD 0,
    it.numUniqueWebsiteViews.getD 0⟩

/-- The two call-signature attempts of
`queryWorkshopItemsWithCompatibility`: whether `getUserItems` exists, and
each signature's outcome (`none` inside `ok` models a result object whose
`items` is not an array). -/
structure WorkshopQuery where
  hasGetUserItems : Bool
  modernCall : Except String (Option (List (Option RawWorkshopItem)))
  legacyCall : Except String (Option (List (Option RawWorkshopItem)))

/-- `getItemsFromQueryResult` (ipc-handlers.ts:120-129). -/
def getItemsFromQueryResult (r : Option (List (Option RawWorkshopItem))) :
    List (Option RawWorkshopItem) :=
  r.getD []

/-- Message thrown when no query method exists (ipc-handlers.ts:185). -/
def noCompatibleQueryMsg : String :=
  "No compatible Steam Workshop query method available"

/-- `queryWorkshopItemsWithCompatibility` (ipc-handlers.ts:131-186): modern
signature first, legacy fallback, rethrow of the last error. -/
def queryWorkshopItemsWithCompatibility (q : WorkshopQuery) :
    Except String (List (Option RawWorkshopItem)) :=
  if q.hasGetUserItems then
    match q.modernCall with
    | .ok r => .ok (getItemsFromQueryResult r)
    | .error _ =>
      match q.legacyCall with
      | .ok r => .ok (getItemsFromQueryResult r)
      | .error e2 => .error e2
  else .error noCompatibleQueryMsg

/-- `WorkshopItemsResult` (src/types.ts:46-50); `status` is one of
`"success"`, `"steam_not_connected"`, `"error"` (the spec's abstract tags
`success` / `not_connected` / `error`). -/
structure WorkshopItemsResult where
  items : List WorkshopItem
  status : String
  message : Option String
deriving DecidableEq

/-- Informational message for an empty listing (ipc-handlers.ts:525-528). -/
def noItemsMsg : String := "No workshop items found. Upload your first mod!"

/-- Message for a failed query on a ready client (ipc-handlers.ts:543-544). -/
def apiUnavailableMsg : String :=
  "Workshop API is currently unavailable. Upload functionality still works."

/-- The `get-workshop-items` handler (ipc-handlers.ts:473-547): a total
function into the tagged result — every exception path is caught and
converted. -/
def getWorkshopItems (env : SteamEnv) (q : WorkshopQuery) :
    WorkshopItemsResult :=
  match ensureSteamClientReady env with
  | .error e =>
    ⟨[], "steam_not_connected", some (normalizeWorkshopError e)⟩
  | .ok _ =>
    match queryWorkshopItemsWithCompatibility q with
    | .ok raw =>
      let items := (raw.filterMap id).map mapRawItem
      ⟨items, "success", if items.length = 0 then some noItemsMsg else none⟩
    | .error e =>
      if isSteamAuthError (normalizeWorkshopError e) then
        ⟨[], "steam_not_connected", some (normalizeWorkshopError e)⟩
      else ⟨[], "error", some apiUnavailableMsg⟩

/-- C5: `listItems` never throws — the handler is a total function into the
tagged result type; an unobtainable client yields `steam_not_connected`
with a non-empty message, and a failed query on a ready client yields
`steam_not_connected` for auth failures and `error` otherwise. -/
theorem listItems_total_and_tagged (env : SteamEnv) (q : WorkshopQuery)
    (hprobe : ∀ pe, env.localplayerProbe = some pe → pe ≠ "") :
    ((getWorkshopItems env q).status = "success" ∨
      (getWorkshopItems env q).status = "steam_not_connected" ∨
      (getWorkshopItems env q).status = "error") ∧
    (∀ e, ensureSteamClientReady env = .error e →
      (getWorkshopItems env q).items = [] ∧
      (getWorkshopItems env q).status = "steam_not_connected" ∧
      ∃ m, (getWorkshopItems env q).message = some m ∧ m ≠ "") ∧
    (∀ e, ensureSteamClientReady env = .ok () →
      queryWorkshopItemsWithCompatibility q = .error e →
      (getWorkshopItems env q).items = [] ∧
      (getWorkshopItems env q).message.isSome = true ∧
      (isSteamAuthError (normalizeWorkshopError e) = true →
        (getWorkshopItems env q).status = "steam_not_connected") ∧
      (isSteamAuthError (normalizeWorkshopError e) = false →
        (getWorkshopItems env q).status = "error")) := by
  refine ⟨?_, ?_, ?_⟩
  · unfold getWorkshopItems
    rcases h1 : ensureSteamClientReady env with e | u
    · simp
    · rcases h2 : queryWorkshopItemsWithCompatibility q with e | raw
      · by_cases ha : isSteamAuthError (normalizeWorkshopError e) <;>
          simp [ha]
      · simp
  · intro e he
    have hne : e ≠ "" := ensureSteamClientReady_error_nonempty env e hprobe he
    have hnorm : normalizeWorkshopError e ≠ "" := by
      unfold normalizeWorkshopError
      split
      · decide
      · exact hne
    unfold getWorkshopItems
    rw [he]
    exact ⟨rfl, rfl, normalizeWorkshopError e, rfl, hnorm⟩
  · intro e hok hq
    unfold getWorkshopItems
    rw [hok, hq]
    by_cases ha : isSteamAuthError (normalizeWorkshopError e) = true <;>
      simp [ha]

/-- Witness for C5: the client never becomes ready (initialization fails
after exhausting retries). -/
def offlineEnv : SteamEnv := ⟨false, false, false, none⟩

/-- Witness for C5: an offline environment with an irrelevant query
oracle. -/
theorem listItems_total_and_tagged_witness :
    ((getWorkshopItems offlineEnv ⟨true, .ok none, .ok none⟩).status =
        "success" ∨
      (getWorkshopItems offlineEnv ⟨true, .ok none, .ok none⟩).status =
        "steam_not_connected" ∨
      (getWorkshopItems offlineEnv ⟨true, .ok none, .ok none⟩).status =
        "error") ∧
    (∀ e, ensureSteamClientReady offlineEnv = .error e →
      (getWorkshopItems offlineEnv ⟨true, .ok none, .ok none⟩).items = [] ∧
      (getWorkshopItems offlineEnv ⟨true, .ok none, .ok none⟩).status =
        "steam_not_connected" ∧
      ∃ m, (getWorkshopItems offlineEnv ⟨true, .ok none, .ok none⟩).message =
          some m ∧ m ≠ "") ∧
    (∀ e, ensureSteamClientReady offlineEnv = .ok () →
      queryWorkshopItemsWithCompatibility ⟨true, .ok none, .ok none⟩ =
        .error e →
      (getWorkshopItems offlineEnv ⟨true, .ok none, .ok none⟩).items = [] ∧
      (getWorkshopItems offlineEnv
          ⟨true, .ok none, .ok none⟩).message.isSome = true ∧
      (isSteamAuthError (normalizeWorkshopError e) = true →
        (getWorkshopItems offlineEnv ⟨true, .ok none, .ok none⟩).status =
          "steam_not_connected") ∧
      (isSteamAuthError (normalizeWorkshopError e) = false →
        (getWorkshopItems offlineEnv ⟨true, .ok none, .ok none⟩).status =
          "error")) :=
  listItems_total_and_tagged offlineEnv ⟨true, .ok none, .ok none⟩
    (by intro pe h; cases h)

/-! ## ipc-handlers.ts — `upload-to-workshop` -/

/-- `ModUploadData` (src/types.ts:15-25). -/
structure ModUploadData where
  zipPath : Option String
  title : String
  description : String
  tags : Option String
  visibility : Option String
  previewImagePath : Option String
  workshopId : Option String
  changeNotes : Option String
  change_note : Option String
deriving DecidableEq

/-- JavaScript falsy test on an optional string (`!x`): absent or empty. -/
def jsFalsy (x : Option String) : Bool :=
  match x with
  | none => true
  | some s => s == ""

/-- The tag normalization of the upload handler (ipc-handlers.ts:386-391):
`tags.split(',').map(t => t.trim()).filter(t => t.length > 0)`. -/
def splitTags (t : String) : List String :=
  (((t.splitOn ",").map fun s => (⟨jsTrim s.data⟩ : String)).filter
    fun s => s ≠ "")

/-- The update descriptor assembled by the upload handler
(ipc-handlers.ts:374-407). -/
structure UpdateDetails where
  title : Option String
  description : Option String
  tags : Option (List String)
  visibility : Option Nat
  contentPath : Option String
  previewPath : Option String
  changeNote : Option String
deriving DecidableEq

/-- Descriptor construction (ipc-handlers.ts:374-407): only truthy fields
are copied; visibility is always mapped (default `'private'`); the preview
path additionally requires the file to exist on disk. -/
def buildUpdateDetails (previewOnDisk : Bool) (m : ModUploadData) :
    UpdateDetails where
  title := if m.title = "" then none else some m.title
  description := if m.description = "" then none else some m.description
  tags :=
    match m.tags with
    | none => none
    | some t => if t = "" then none else some (splitTags t)
  visibility := some (visibilityToUgcVisibility (jsOrElse m.visibility "private"))
  contentPath := if jsFalsy m.zipPath then none else m.zipPath
  previewPath :=
    if jsFalsy m.previewImagePath || !previewOnDisk then none
    else m.previewImagePath
  changeNote := if jsFalsy m.changeNotes then none else m.changeNotes

/-- A remote SDK interaction of the upload handler, in invocation order. -/
inductive RemoteCall where
  | createItem (appId : Nat)
  | updateItem (itemId : Nat) (details : UpdateDetails) (appId : Nat)
  | overlayOpen (publishedFileId : String)
deriving DecidableEq

/-- The workshop SDK surface the upload handler calls: `createItem` yields a
new item id (or throws), `updateItem` acknowledges per item id (or
throws). -/
structure WorkshopSdk where
  createResult : Except String Nat
  updateResult : Nat → Except String Unit

/-- `WorkshopUploadResult` (src/types.ts:39-43). -/
structure WorkshopUploadResult where
  success : Bool
  publishedFileId : Option String
  error : Option String
deriving DecidableEq

/-- `BigInt(workshopId)` — parse of the decimal id string (the empty string
converts to `0n`); an unparsable string makes the JS constructor throw. -/
def bigIntOfString (s : String) : Option Nat :=
  if s.data = [] then some 0
  else if s.data.all Char.isDigit then
    some (s.data.foldl (fun acc c => acc * 10 + (c.toNat - 48)) 0)
  else none

/-- Message of the exception `BigInt` raises on a malformed id. -/
def bigIntErrorMsg (s : String) : String :=
  "Cannot convert " ++ s ++ " to a BigInt"

/-- The `upload-to-workshop` handler (ipc-handlers.ts:354-470): readiness
check, descriptor build, create-then-update for new items or direct update
for existing ones, best-effort overlay navigation, and the thrown
(normalized) error on failure.  Returns the outcome together with the trace
of SDK interactions in order. -/
def uploadToWorkshop (env : SteamEnv) (sdk : WorkshopSdk)
    (previewOnDisk : Bool) (m : ModUploadData) :
    Except String WorkshopUploadResult × List RemoteCall :=
  match ensureSteamClientReady env with
  | .error e => (.error (normalizeWorkshopError e), [])
  | .ok _ =>
    let details := buildUpdateDetails previewOnDisk m
    if jsFalsy m.workshopId then
      match sdk.createResult with
      | .error e => (.error (normalizeWorkshopError e), [.createItem appId])
      | .ok newId =>
        match sdk.updateResult newId with
        | .error e =>
          (.error (normalizeWorkshopError e),
            [.createItem appId, .updateItem newId details appId])
        | .ok _ =>
          (.ok ⟨true, some (toString newId), none⟩,
            [.createItem appId, .updateItem newId details appId,
              .overlayOpen (toString newId)])
    else
      match m.workshopId with
      | none => (.error (normalizeWorkshopError (bigIntErrorMsg "")), [])
      | some w =>
        match bigIntOfString w with
        | none => (.error (normalizeWorkshopError (bigIntErrorMsg w)), [])
        | some wid =>
          match sdk.updateResult wid with
          | .error e =>
            (.error (normalizeWorkshopError e),
              [.updateItem wid details appId])
          | .ok _ =>
            (.ok ⟨true, some w, none⟩,
              [.updateItem wid details appId, .overlayOpen w])

/-- C4: a record without a workshop id goes create-then-update against the
fresh id and succeeds with that id rendered as a string; a record with a
workshop id goes straight to update against it and succeeds with the id
string; both results carry `success = true`. -/
theorem uploadOrUpdate_call_sequence (env : SteamEnv) (sdk : WorkshopSdk)
    (previewOnDisk : Bool) (m : ModUploadData) (newId : Nat)
    (henv : ensureSteamClientReady env = .ok ())
    (hc : sdk.createResult = .ok newId)
    (hu : ∀ i, sdk.updateResult i = .ok ()) :
    (jsFalsy m.workshopId = true →
      uploadToWorkshop env sdk previewOnDisk m =
        (.ok ⟨true, some (toString newId), none⟩,
          [.createItem appId,
            .updateItem newId (buildUpdateDetails previewOnDisk m) appId,
            .overlayOpen (toString newId)])) ∧
    (∀ w wid, m.workshopId = some w → bigIntOfString w = some wid →
      jsFalsy m.workshopId = false →
      uploadToWorkshop env sdk previewOnDisk m =
        (.ok ⟨true, some w, none⟩,
          [.updateItem wid (buildUpdateDetails previewOnDisk m) appId,
            .overlayOpen w])) := by
  constructor
  · intro hfalsy
    unfold uploadToWorkshop
    simp [henv, hc, hfalsy, hu]
  · intro w wid hw hwid hfalsy
    rw [hw] at hfalsy
    unfold uploadToWorkshop
    simp [henv, hw, hfalsy, hwid, hu]

/-- A Steam environment with a ready, signed-in client. -/
def readyEnv : SteamEnv := ⟨true, true, true, none⟩

/-- An SDK double whose create yields id 42 and whose updates succeed. -/
def okSdk : WorkshopSdk := ⟨.ok 42, fun _ => .ok ()⟩

/-- A create-mode upload record (no workshop id). -/
def createRecord : ModUploadData :=
  ⟨some "C:\\mods\\m.zip", "My Mod", "Desc", some "a, b", some "public",
    none, none, none, none⟩

/-- An update-mode upload record (workshop id `"77"`). -/
def updateRecord : ModUploadData :=
  ⟨some "C:\\mods\\m.zip", "My Mod", "Desc", some "a, b", some "public",
    none, some "77", some "notes", some "notes"⟩

/-- Witness for C4: both branches at concrete records against the test
double. -/
theorem uploadOrUpdate_call_sequence_witness :
    uploadToWorkshop readyEnv okSdk false createRecord =
      (.ok ⟨true, some "42", none⟩,
        [.createItem appId,
          .updateItem 42 (buildUpdateDetails false createRecord) appId,
          .overlayOpen "42"]) ∧
    uploadToWorkshop readyEnv okSdk false updateRecord =
      (.ok ⟨true, some "77", none⟩,
        [.updateItem 77 (buildUpdateDetails false updateRecord) appId,
          .overlayOpen "77"]) :=
  ⟨(uploadOrUpdate_call_sequence readyEnv okSdk false createRecord 42
      rfl rfl (fun _ => rfl)).1 (by decide),
    (uploadOrUpdate_call_sequence readyEnv okSdk false updateRecord 42
      rfl rfl (fun _ => rfl)).2 "77" 77 rfl (by decide) (by decide)⟩

/-! ## ModEditor.tsx — `handleSubmit`

The renderer form is the only caller of the `upload-to-workshop` IPC
channel; its `handleSubmit` performs the UploadRecord validation before the
invoke, so the pipeline below (validate, then hand the assembled
`ModUploadData` to the main-process handler) is the system's
`uploadOrUpdate` operation. -/

/-- The validation rejections of `handleSubmit` (ModEditor.tsx:144-159),
shown to the user as status messages. -/
inductive ValidationError where
  | zipRequired
  | titleDescriptionRequired
  | changeNotesRequired
deriving DecidableEq

/-- The form state feeding `handleSubmit`: the item being edited (if any),
the selected file paths, and the text fields. -/
structure EditorForm where
  editingItem : Option WorkshopItem
  selectedZipPath : Option String
  selectedPreviewPath : Option String
  title : String
  description : String
  tags : String
  visibility : String
  changeNotes : String

/-- The automatic change notes generated for metadata-only updates
(ModEditor.tsx:163-184). -/
def autoChangeNotes (f : EditorForm) (item : WorkshopItem) : String :=
  let changes :=
    (if f.title ≠ item.title then
      ["Updated title from \"" ++ item.title ++ "\" to \"" ++ f.title ++ "\""]
    else []) ++
    (if f.description ≠ item.description then ["Updated description"]
    else []) ++
    (if f.tags ≠ String.intercalate ", " item.tags then ["Updated tags"]
    else []) ++
    (if f.visibility ≠ item.visibility then
      ["Changed visibility from " ++ item.visibility ++ " to " ++
        f.visibility]
    else [])
  if changes ≠ [] then "Minor update: " ++ String.intercalate ", " changes ++ "."
  else "Minor update: No significant changes."

/-- `handleSubmit` (ModEditor.tsx:141-211): the three validation gates, the
automatic change notes for metadata-only updates, and the assembled
`ModUploadData` handed to `onUpload` (which invokes the
`upload-to-workshop` channel). -/
def handleSubmit (f : EditorForm) : Except ValidationError ModUploadData :=
  if f.editingItem = none ∧ jsFalsy f.selectedZipPath then
    .error .zipRequired
  else if f.title = "" ∨ f.description = "" then
    .error .titleDescriptionRequired
  else if f.editingItem ≠ none ∧ ¬ jsFalsy f.selectedZipPath ∧
      jsTrim f.changeNotes.data = [] then
    .error .changeNotesRequired
  else
    let changeNotes :=
      match f.editingItem with
      | some item => if jsFalsy f.selectedZipPath then autoChangeNotes f item
                     else f.changeNotes
      | none => f.changeNotes
    let finalNotes : Option String :=
      if changeNotes ≠ "" then some changeNotes
      else if f.editingItem ≠ none then some "Updated mod."
      else none
    .ok
      { zipPath := if jsFalsy f.selectedZipPath then none
                   else f.selectedZipPath
        title := f.title
        description := f.description
        tags := some f.tags
        visibility := some f.visibility
        previewImagePath := if jsFalsy f.selectedPreviewPath then none
                            else f.selectedPreviewPath
        workshopId := f.editingItem.map (·.publishedFileId)
        changeNotes := finalNotes
        change_note := finalNotes }

/-- The outcome of a form submission. -/
inductive SubmitOutcome where
  | rejected (e : ValidationError)
  | uploaded (r : Except String WorkshopUploadResult)

/-- The full `uploadOrUpdate` pipeline: `handleSubmit` validation in the
renderer, then the `upload-to-workshop` handler in the main process.  A
rejected submission never reaches the main process, so its SDK trace is
empty. -/
def submitAndUpload (env : SteamEnv) (sdk : WorkshopSdk)
    (previewOnDisk : Bool) (f : EditorForm) :
    SubmitOutcome × List RemoteCall :=
  match handleSubmit f with
  | .error v => (.rejected v, [])
  | .ok m =>
    let r := uploadToWorkshop env sdk previewOnDisk m
    (.uploaded r.1, r.2)

/-- C1: a submission that is a create with no content (no editing item and
no selected archive), or an update that supplies a new archive with empty
change notes, is rejected by validation and produces no remote SDK call
(`createItem`/`updateItem`) at all. -/
theorem validation_rejects_before_remote_calls (env : SteamEnv)
    (sdk : WorkshopSdk) (previewOnDisk : Bool) (f : EditorForm)
    (h : (f.editingItem = none ∧ jsFalsy f.selectedZipPath = true) ∨
      (f.editingItem ≠ none ∧ jsFalsy f.selectedZipPath = false ∧
        f.changeNotes = "")) :
    (∃ v, (submitAndUpload env sdk previewOnDisk f).1 =
      SubmitOutcome.rejected v) ∧
    (submitAndUpload env sdk previewOnDisk f).2 = [] := by
  have hreject : ∃ v, handleSubmit f = .error v := by
    rcases h with ⟨h1, h2⟩ | ⟨h1, h2, h3⟩
    · exact ⟨.zipRequired, by unfold handleSubmit; rw [if_pos ⟨h1, h2⟩]⟩
    · by_cases ht : f.title = "" ∨ f.description = ""
      · refine ⟨.titleDescriptionRequired, ?_⟩
        unfold handleSubmit
        rw [if_neg (by simp [h1]), if_pos ht]
      · refine ⟨.changeNotesRequired, ?_⟩
        unfold handleSubmit
        rw [if_neg (by simp [h1]), if_neg ht,
          if_pos ⟨h1, by simp [h2], by rw [h3]; rfl⟩]
  obtain ⟨v, hv⟩ := hreject
  unfold submitAndUpload
  rw [hv]
  exact ⟨⟨v, rfl⟩, rfl⟩

/-- A create-mode form with no archive selected. -/
def emptyCreateForm : EditorForm :=
  ⟨none, none, none, "T", "D", "", "public", ""⟩

/-- An update-mode form with a new archive but empty change notes. -/
def noNotesUpdateForm : EditorForm :=
  ⟨some ⟨"77", "Old", "OldDesc", [], "public", 0, 0, 0, 0, 0⟩,
    some "C:\\m.zip", none, "T", "D", "", "public", ""⟩

/-- Witness for C1: both rejection classes at concrete forms. -/
theorem validation_rejects_before_remote_calls_witness :
    ((∃ v, (submitAndUpload readyEnv okSdk false emptyCreateForm).1 =
        SubmitOutcome.rejected v) ∧
      (submitAndUpload readyEnv okSdk false emptyCreateForm).2 = []) ∧
    ((∃ v, (submitAndUpload readyEnv okSdk false noNotesUpdateForm).1 =
        SubmitOutcome.rejected v) ∧
      (submitAndUpload readyEnv okSdk false noNotesUpdateForm).2 = []) :=
  ⟨validation_rejects_before_remote_calls readyEnv okSdk false
      emptyCreateForm (Or.inl ⟨rfl, rfl⟩),
    validation_rejects_before_remote_calls readyEnv okSdk false
      noNotesUpdateForm (Or.inr ⟨by decide, rfl, rfl⟩)⟩

/-! ## ipc-handlers.ts — file-read whitelist

`allowedFilePaths` is module state of the main process; the only writers are
the two selection dialogs and a successful image compression.  `path.resolve`
and the resolved temp directory are platform facts, taken as parameters. -/

/-- Main-process mutable state relevant to `read-file-base64`. -/
structure MainProcState where
  allowedFilePaths : List String

/-- `allowFilePath` (ipc-handlers.ts:49-53): a truthy path is resolved and
added to the whitelist set. -/
def allowFilePath (resolve : String → String) (s : MainProcState)
    (filePath : String) : MainProcState :=
  if filePath = "" then s
  else if resolve filePath ∈ s.allowedFilePaths then s
  else ⟨resolve filePath :: s.allowedFilePaths⟩

/-- `isFilePathAllowed` (ipc-handlers.ts:58-66): resolved temp-directory
prefixes are always allowed, otherwise the resolved path must be
whitelisted. -/
def isFilePathAllowed (resolve : String → String) (tempDir : String)
    (s : MainProcState) (filePath : String) : Bool :=
  if (resolve filePath).startsWith tempDir then true
  else decide (resolve filePath ∈ s.allowedFilePaths)

/-- The main-process events that touch the whitelist: the two selection
dialogs (with the chosen path, if any), a finished image compression (with
its success flag and output path), a `read-file-base64` request, and any
other IPC traffic. -/
inductive MainEvent where
  | selectZip (chosen : Option String)
  | selectPreviewImage (chosen : Option String)
  | compressImage (success : Bool) (compressedPath : Option String)
  | readFileBase64Call (path : String)
  | otherIpc

/-- State transition of one main-process event: only dialog selections
(ipc-handlers.ts:243-247, 279-284) and successful compressions
(ipc-handlers.ts:345-348) add to the whitelist. -/
def stepEvent (resolve : String → String) (s : MainProcState) :
    MainEvent → MainProcState
  | .selectZip (some p) => allowFilePath resolve s p
  | .selectZip none => s
  | .selectPreviewImage (some p) => allowFilePath resolve s p
  | .selectPreviewImage none => s
  | .compressImage true (some p) => allowFilePath resolve s p
  | .compressImage true none => s
  | .compressImage false _ => s
  | .readFileBase64Call _ => s
  | .otherIpc => s

/-- The main-process state reached from startup (empty whitelist) by a
sequence of events. -/
def runEvents (resolve : String → String) (evs : List MainEvent) :
    MainProcState :=
  evs.foldl (stepEvent resolve) ⟨[]⟩

/-- The resolved path an event contributes to the whitelist, if any. -/
def addedPath (resolve : String → String) : MainEvent → Option String
  | .selectZip (some p) => if p = "" then none else some (resolve p)
  | .selectPreviewImage (some p) => if p = "" then none else some (resolve p)
  | .compressImage true (some p) => if p = "" then none else some (resolve p)
  | _ => none

/-- Spec-side characterization: the resolved paths added by a
file-selection dialog or a successful compression. -/
def dialogOrCompressPaths (resolve : String → String)
    (evs : List MainEvent) : List String :=
  evs.filterMap (addedPath resolve)

/-- The MIME type computed by `read-file-base64`
(ipc-handlers.ts:321-323). -/
def mimeTypeFor (p : String) : String :=
  let raw : String := ⟨jsToLower ((p.splitOn ".").getLastD "").data⟩
  let ext := if raw = "" then "png" else raw
  if ext = "jpg" ∨ ext = "jpeg" then "image/jpeg" else "image/" ++ ext

/-- The `read-file-base64` handler (ipc-handlers.ts:303-330): whitelist
check, existence check, then the data-URL built from the base64 content the
filesystem yields.  The second component records whether `fs.readFile` was
invoked. -/
def readFileBase64 (resolve : String → String) (tempDir : String)
    (s : MainProcState) (fileOnDisk : Bool) (base64Content : String)
    (filePath : String) : Option String × Bool :=
  if isFilePathAllowed resolve tempDir s filePath = false then (none, false)
  else if fileOnDisk = false then (none, false)
  else
    (some ("data:" ++ mimeTypeFor filePath ++ ";base64," ++ base64Content),
      true)

theorem allowFilePath_mem (resolve : String → String) (t : MainProcState)
    (p r : String) (hr : r ∈ (allowFilePath resolve t p).allowedFilePaths) :
    r ∈ t.allowedFilePaths ∨ (p ≠ "" ∧ r = resolve p) := by
  unfold allowFilePath at hr
  by_cases hp : p = ""
  · rw [if_pos hp] at hr
    exact Or.inl hr
  · rw [if_neg hp] at hr
    split at hr
    · exact Or.inl hr
    · rw [List.mem_cons] at hr
      rcases hr with rfl | hr
      · exact Or.inr ⟨hp, rfl⟩
      · exact Or.inl hr

theorem stepEvent_allowed (resolve : String → String) (t : MainProcState)
    (ev : MainEvent) (r : String)
    (hr : r ∈ (stepEvent resolve t ev).allowedFilePaths) :
    r ∈ t.allowedFilePaths ∨ addedPath resolve ev = some r := by
  cases ev with
  | selectZip c =>
    cases c with
    | none => exact Or.inl hr
    | some p =>
      rcases allowFilePath_mem resolve t p r hr with h | ⟨hp, rfl⟩
      · exact Or.inl h
      · exact Or.inr (by simp [addedPath, hp])
  | selectPreviewImage c =>
    cases c with
    | none => exact Or.inl hr
    | some p =>
      rcases allowFilePath_mem resolve t p r hr with h | ⟨hp, rfl⟩
      · exact Or.inl h
      · exact Or.inr (by simp [addedPath, hp])
  | compressImage ok c =>
    cases ok with
    | false => exact Or.inl hr
    | true =>
      cases c with
      | none => exact Or.inl hr
      | some p =>
        rcases allowFilePath_mem resolve t p r hr with h | ⟨hp, rfl⟩
        · exact Or.inl h
        · exact Or.inr (by simp [addedPath, hp])
  | readFileBase64Call p => exact Or.inl hr
  | otherIpc => exact Or.inl hr

theorem runEvents_allowed_from_events (resolve : String → String)
    (evs : List MainEvent) :
    ∀ q ∈ (runEvents resolve evs).allowedFilePaths,
      q ∈ dialogOrCompressPaths resolve evs := by
  have main : ∀ (l : List MainEvent) (s : MainProcState),
      ∀ q ∈ (l.foldl (stepEvent resolve) s).allowedFilePaths,
        q ∈ s.allowedFilePaths ∨ q ∈ dialogOrCompressPaths resolve l := by
    intro l
    induction l with
    | nil => intro s q hq; exact Or.inl hq
    | cons ev rest ih =>
      intro s q hq
      rw [List.foldl_cons] at hq
      rcases ih (stepEvent resolve s ev) q hq with hin | hin
      · rcases stepEvent_allowed resolve s ev q hin with hin' | hin'
        · exact Or.inl hin'
        · exact Or.inr (List.mem_filterMap.mpr
            ⟨ev, List.mem_cons_self ev rest, hin'⟩)
      · obtain ⟨a, ha, hfa⟩ := List.mem_filterMap.mp hin
        exact Or.inr (List.mem_filterMap.mpr
          ⟨a, List.mem_cons_of_mem ev ha, hfa⟩)
  intro q hq
  rcases main evs ⟨[]⟩ q hq with h | h
  · simp at h
  · exact h

/-- C10: in every reachable main-process state (any event sequence from
startup), a denied path makes `read-file-base64` return `null` without
reading the file, and any invocation that yields content or reads at all
certifies that the path resolves into the temp directory or was previously
whitelisted by a selection dialog or a successful compression. -/
theorem readFileBase64_whitelist_invariant (resolve : String → String)
    (tempDir : String) (evs : List MainEvent) (fileOnDisk : Bool)
    (base64Content : String) (filePath : String) :
    (isFilePathAllowed resolve tempDir (runEvents resolve evs) filePath =
        false →
      readFileBase64 resolve tempDir (runEvents resolve evs) fileOnDisk
        base64Content filePath = (none, false)) ∧
    (((readFileBase64 resolve tempDir (runEvents resolve evs) fileOnDisk
          base64Content filePath).1 ≠ none ∨
      (readFileBase64 resolve tempDir (runEvents resolve evs) fileOnDisk
          base64Content filePath).2 = true) →
      (resolve filePath).startsWith tempDir = true ∨
        resolve filePath ∈ dialogOrCompressPaths resolve evs) := by
  have hdenied : isFilePathAllowed resolve tempDir (runEvents resolve evs)
      filePath = false →
      readFileBase64 resolve tempDir (runEvents resolve evs) fileOnDisk
        base64Content filePath = (none, false) := by
    intro hdeny
    unfold readFileBase64
    rw [if_pos hdeny]
  refine ⟨hdenied, ?_⟩
  intro huse
  by_cases hallow : isFilePathAllowed resolve tempDir (runEvents resolve evs)
      filePath = false
  · rw [hdenied hallow] at huse
    rcases huse with h | h
    · exact absurd rfl h
    · exact absurd h (by decide)
  · unfold isFilePathAllowed at hallow
    by_cases htmp : (resolve filePath).startsWith tempDir = true
    · exact Or.inl htmp
    · refine Or.inr ?_
      rw [if_neg (by simp [htmp])] at hallow
      have hmem : resolve filePath ∈
          (runEvents resolve evs).allowedFilePaths := by
        by_contra hc
        exact hallow (by simp [hc])
      exact runEvents_allowed_from_events resolve evs _ hmem

/-- Witness for C10: a denied read (path `"secret.txt"`, empty event
history, identity resolution, temp dir `"/tmp/"`). -/
theorem readFileBase64_whitelist_invariant_witness :
    (isFilePathAllowed id "/tmp/" (runEvents id []) "secret.txt" = false →
      readFileBase64 id "/tmp/" (runEvents id []) true "QUJD" "secret.txt" =
        (none, false)) ∧
    (((readFileBase64 id "/tmp/" (runEvents id []) true "QUJD"
          "secret.txt").1 ≠ none ∨
      (readFileBase64 id "/tmp/" (runEvents id []) true "QUJD"
          "secret.txt").2 = true) →
      (id "secret.txt" : String).startsWith "/tmp/" = true ∨
        id "secret.txt" ∈ dialogOrCompressPaths id []) :=
  readFileBase64_whitelist_invariant id "/tmp/" [] true "QUJD" "secret.txt"

/-! ## A JavaScript regular-expression engine

The mod-parser regexes use literals, the classes `\w`, `\s`, `[^}]`,
`["']`, `[^"']`, `[^]`, greedy and lazy `*`/`+`, optional `?`, one capture
group, non-capturing groups, and `\b` — no alternation.  The engine below
is a backtracking matcher with JavaScript semantics: leftmost match,
greedy-first (lazy-first for `*?`), and a quantified expression whose body
matched the empty string exits its loop.  The fuel argument strictly
decreases on every recursive call; each use supplies fuel exceeding any
reachable call depth, which is bounded by the pattern size plus a small
multiple of the characters consumed. -/

/-- Character classes of the mod-parser regexes. -/
inductive CharCls where
  | lit (c : Char)
  | word
  | space
  | any
  | oneOf (cs : List Char)
  | noneOf (cs : List Char)

/-- Class membership. -/
def CharCls.matches : CharCls → Char → Bool
  | .lit c, d => c == d
  | .word, d => isWordChar d
  | .space, d => isSpaceJS d
  | .any, _ => true
  | .oneOf cs, d => cs.contains d
  | .noneOf cs, d => !cs.contains d

/-- Regex abstract syntax (the subset the mod-parser uses). -/
inductive RE where
  | eps
  | cls (c : CharCls)
  | seq (a b : RE)
  | star (greedy : Bool) (a : RE)
  | opt (a : RE)
  | grp (i : Nat) (a : RE)
  | wb

/-- Capture records: (group index, start, stop). -/
abbrev Caps := List (Nat × Nat × Nat)

/-- The backtracking matcher in continuation-passing style.  `k` receives
the position and captures after `re`; returning `none` from `k` resumes
backtracking inside `re`. -/
def matchRE : Nat → RE → List Char → Nat → Caps →
    (Nat → Caps → Option (Nat × Caps)) → Option (Nat × Caps)
  | 0, _, _, _, _, _ => none
  | fuel + 1, re, s, pos, caps, k =>
    match re with
    | .eps => k pos caps
    | .cls c =>
      match s.get? pos with
      | some d => if c.matches d then k (pos + 1) caps else none
      | none => none
    | .seq a b =>
      matchRE fuel a s pos caps fun p cp => matchRE fuel b s p cp k
    | .opt a =>
      match matchRE fuel a s pos caps k with
      | some r => some r
      | none => k pos caps
    | .grp i a =>
      matchRE fuel a s pos caps fun p cp => k p ((i, pos, p) :: cp)
    | .wb =>
      let before :=
        match pos with
        | 0 => false
        | q + 1 =>
          match s.get? q with
          | some d => isWordChar d
          | none => false
      let here :=
        match s.get? pos with
        | some d => isWordChar d
        | none => false
      if before ≠ here then k pos caps else none
    | .star greedy a =>
      let iter :=
        matchRE fuel a s pos caps fun p cp =>
          if p = pos then k p cp
          else matchRE fuel (.star greedy a) s p cp k
      if greedy then
        match iter with
        | some r => some r
        | none => k pos caps
      else
        match k pos caps with
        | some r => some r
        | none => iter

/-- Fuel ample for any backtracking path over `s`. -/
def reFuel (s : List Char) : Nat := 16 * s.length + 512

/-- Attempt a match anchored at `pos`; yields the end position and
captures. -/
def reMatchAt (re : RE) (s : List Char) (pos : Nat) : Option (Nat × Caps) :=
  matchRE (reFuel s) re s pos [] fun p cp => some (p, cp)

/-- Scan for the leftmost match (`String.prototype.match` without `/g`,
`search`): yields (start, end, captures). -/
def reFindFrom (re : RE) (s : List Char) : Nat → Nat → Option (Nat × Nat × Caps)
  | 0, _ => none
  | fuel + 1, pos =>
    match reMatchAt re s pos with
    | some (e, cp) => some (pos, e, cp)
    | none =>
      if pos < s.length then reFindFrom re s fuel (pos + 1) else none

/-- Leftmost match of `re` in `s`. -/
def reFind (re : RE) (s : List Char) : Option (Nat × Nat × Caps) :=
  reFindFrom re s (s.length + 1) 0

/-- `RegExp.prototype.test`. -/
def reTest (re : RE) (s : List Char) : Bool := (reFind re s).isSome

/-- The slice `s[a..b)`. -/
def sub (s : List Char) (a b : Nat) : List Char := (s.drop a).take (b - a)

/-- The text of capture group `i` of a match over `s`. -/
def capStr (s : List Char) (caps : Caps) (i : Nat) : Option (List Char) :=
  (caps.find? fun t => t.1 == i).map fun t => sub s t.2.1 t.2.2

/-- Sequence a list of regexes. -/
def rSeq (l : List RE) : RE := l.foldr .seq .eps

/-- A literal string regex. -/
def rLit (str : String) : RE :=
  str.data.foldr (fun c acc => RE.seq (.cls (.lit c)) acc) .eps

/-- `\s*`. -/
def rWs : RE := .star true (.cls .space)

/-- `x+` (greedy). -/
def rPlus (a : RE) : RE := .seq a (.star true a)

/-! ## mod-parser — text transforms for metadata cleanup -/

/-- The global replace `(\w+):` → `"$1":` of `parseMetadataObject`: a
maximal word-character run immediately followed by a colon is wrapped in
double quotes (a shorter suffix of a run can never match, so runs are
processed whole, exactly as the regex engine's leftmost scan does).  Fueled
by the input length; every recursive call strictly shrinks the list. -/
def quoteKeys : Nat → List Char → List Char
  | 0, l => l
  | _ + 1, [] => []
  | fuel + 1, c :: rest =>
    if isWordChar c then
      let run := (c :: rest).takeWhile isWordChar
      let after := (c :: rest).dropWhile isWordChar
      match after with
      | ':' :: tail => '"' :: (run ++ '"' :: ':' :: quoteKeys fuel tail)
      | _ => run ++ quoteKeys fuel after
    else c :: quoteKeys fuel rest

/-- The global replace `'` → `"` of `parseMetadataObject`. -/
def singleQuoteToDouble (l : List Char) : List Char :=
  l.map fun c => if c = '\'' then '"' else c

/-- The brace-nesting walk of `parseMetadataObject` (part_004:302-319):
collect characters, counting `{` up and `}` down, stopping right after the
count returns to zero; an unbalanced tail is collected whole. -/
def braceWalkAux : List Char → Int → List Char
  | [], _ => []
  | c :: rest, n =>
    if c = '\x7b' then c :: braceWalkAux rest (n + 1)
    else if c = '\x7d' then
      if n - 1 = 0 then [c] else c :: braceWalkAux rest (n - 1)
    else c :: braceWalkAux rest n

/-- The bounded brace walk of fallback Method 0 (part_004:362-375): the
same walk capped at 5000 characters. -/
def braceWalkN : Nat → List Char → Int → List Char
  | 0, _, _ => []
  | _ + 1, [], _ => []
  | k + 1, c :: rest, n =>
    if c = '\x7b' then c :: braceWalkN k rest (n + 1)
    else if c = '\x7d' then
      if n - 1 = 0 then [c] else c :: braceWalkN k rest (n - 1)
    else c :: braceWalkN k rest n

/-! ## A JSON parser (`JSON.parse`)

Strict JSON: double-quoted strings with the standard escapes, objects,
arrays, numbers without leading zeros, `true`/`false`/`null`, and no
trailing content.  Numbers are stored as mantissa and decimal exponent.
The parser is one fueled recursion over a task tag (value, string tail,
array tail, object tail) so that it remains structurally recursive and
kernel-evaluable. -/

/-- Parsed JSON values. -/
inductive Json where
  | str (s : String)
  | num (neg : Bool) (mantissa : Nat) (exp10 : Int)
  | obj (fields : List (String × Json))
  | arr (elems : List Json)
  | bool (b : Bool)
  | null

/-- JSON insignificant whitespace. -/
def skipWsJson (l : List Char) : List Char :=
  l.dropWhile fun c => c == ' ' || c == '\t' || c == '\n' || c == '\r'

/-- Hexadecimal digit value. -/
def hexVal (c : Char) : Option Nat :=
  if '0' ≤ c ∧ c ≤ '9' then some (c.toNat - 48)
  else if 'a' ≤ c ∧ c ≤ 'f' then some (c.toNat - 87)
  else if 'A' ≤ c ∧ c ≤ 'F' then some (c.toNat - 70)
  else none

/-- Decimal digit run: value, digit count, rest. -/
def digitRun (l : List Char) : Nat × Nat × List Char :=
  let ds := l.takeWhile Char.isDigit
  (ds.foldl (fun acc c => acc * 10 + (c.toNat - 48)) 0, ds.length,
    l.dropWhile Char.isDigit)

/-- JSON number parsing (`-? (0|[1-9][0-9]*) (\.[0-9]+)? ([eE][+-]?[0-9]+)?`),
returning the value as sign, mantissa and power of ten. -/
def parseJsonNum (l : List Char) : Option (Json × List Char) :=
  let (neg, l1) :=
    match l with
    | '-' :: r => (true, r)
    | _ => (false, l)
  let (ival, icount, l2) := digitRun l1
  if icount = 0 then none
  else if 1 < icount ∧ l1.headD ' ' = '0' then none
  else
    let (mant1, e1, l3) :=
      match l2 with
      | '.' :: r =>
        let (fval, fcount, r2) := digitRun r
        if fcount = 0 then (ival, (0 : Int), '.' :: r)
        else (ival * 10 ^ fcount + fval, -(fcount : Int), r2)
      | _ => (ival, 0, l2)
    if l3.headD ' ' = '.' then none
    else
      match l3 with
      | 'e' :: r | 'E' :: r =>
        let (esign, r1) :=
          match r with
          | '+' :: r2 => ((1 : Int), r2)
          | '-' :: r2 => (-1, r2)
          | _ => (1, r)
        let (eval', ecount, r2) := digitRun r1
        if ecount = 0 then none
        else some (.num neg mant1 (e1 + esign * eval'), r2)
      | _ => some (.num neg mant1 e1, l3)

/-- Task tag of the JSON recursion. -/
inductive JTask where
  | val
  | strTail (acc : List Char)
  | arrTail (acc : List Json)
  | objTail (acc : List (String × Json))

/-- Result of one JSON task. -/
inductive JOut where
  | val (j : Json) (rest : List Char)
  | strDone (s : List Char) (rest : List Char)
  | arrDone (elems : List Json) (rest : List Char)
  | objDone (fields : List (String × Json)) (rest : List Char)

/-- The fueled JSON recursion. -/
def parseJ : Nat → JTask → List Char → Option JOut
  | 0, _, _ => none
  | fuel + 1, .strTail acc, l =>
    match l with
    | [] => none
    | '"' :: rest => some (.strDone acc rest)
    | '\\' :: esc =>
      match esc with
      | '"' :: r => parseJ fuel (.strTail (acc ++ ['"'])) r
      | '\\' :: r => parseJ fuel (.strTail (acc ++ ['\\'])) r
      | '/' :: r => parseJ fuel (.strTail (acc ++ ['/'])) r
      | 'b' :: r => parseJ fuel (.strTail (acc ++ ['\x08'])) r
      | 'f' :: r => parseJ fuel (.strTail (acc ++ ['\x0c'])) r
      | 'n' :: r => parseJ fuel (.strTail (acc ++ ['\n'])) r
      | 'r' :: r => parseJ fuel (.strTail (acc ++ ['\r'])) r
      | 't' :: r => parseJ fuel (.strTail (acc ++ ['\t'])) r
      | 'u' :: h1 :: h2 :: h3 :: h4 :: r =>
        match hexVal h1, hexVal h2, hexVal h3, hexVal h4 with
        | some a, some b, some c, some d =>
          parseJ fuel
            (.strTail (acc ++ [Char.ofNat (((a * 16 + b) * 16 + c) * 16 + d)]))
            r
        | _, _, _, _ => none
      | _ => none
    | c :: rest =>
      if c.toNat < 32 then none
      else parseJ fuel (.strTail (acc ++ [c])) rest
  | fuel + 1, .arrTail acc, l =>
    match parseJ fuel .val l with
    | some (.val j rest) =>
      match skipWsJson rest with
      | ',' :: r => parseJ fuel (.arrTail (acc ++ [j])) r
      | ']' :: r => some (.arrDone (acc ++ [j]) r)
      | _ => none
    | _ => none
  | fuel + 1, .objTail acc, l =>
    match skipWsJson l with
    | '"' :: r =>
      match parseJ fuel (.strTail []) r with
      | some (.strDone key rest) =>
        match skipWsJson rest with
        | ':' :: r2 =>
          match parseJ fuel .val r2 with
          | some (.val j rest2) =>
            match skipWsJson rest2 with
            | ',' :: r3 => parseJ fuel (.objTail (acc ++ [(⟨key⟩, j)])) r3
            | '\x7d' :: r3 => some (.objDone (acc ++ [(⟨key⟩, j)]) r3)
            | _ => none
          | _ => none
        | _ => none
      | _ => none
    | _ => none
  | fuel + 1, .val, l =>
    match skipWsJson l with
    | 't' :: 'r' :: 'u' :: 'e' :: r => some (.val (.bool true) r)
    | 'f' :: 'a' :: 'l' :: 's' :: 'e' :: r => some (.val (.bool false) r)
    | 'n' :: 'u' :: 'l' :: 'l' :: r => some (.val .null r)
    | '"' :: r =>
      match parseJ fuel (.strTail []) r with
      | some (.strDone s rest) => some (.val (.str ⟨s⟩) rest)
      | _ => none
    | '[' :: r =>
      match skipWsJson r with
      | ']' :: r2 => some (.val (.arr []) r2)
      | r2 =>
        match parseJ fuel (.arrTail []) r2 with
        | some (.arrDone elems rest) => some (.val (.arr elems) rest)
        | _ => none
    | '\x7b' :: r =>
      match skipWsJson r with
      | '\x7d' :: r2 => some (.val (.obj []) r2)
      | r2 =>
        match parseJ fuel (.objTail []) r2 with
        | some (.objDone fields rest) => some (.val (.obj fields) rest)
        | _ => none
    | l' =>
      match parseJsonNum l' with
      | some (j, rest) => some (.val j rest)
      | none => none

/-- `JSON.parse`: parse one value and require only whitespace after it. -/
def jsonParse (l : List Char) : Option Json :=
  match parseJ (4 * l.length + 64) .val l with
  | some (.val j rest) => if skipWsJson rest = [] then some j else none
  | _ => none

/-! ## mod-parser — metadata record and field extraction

`ModPackageInfo` (src/types.ts:52-59).  The JavaScript field reads
(`metadata.name`, `metadata.title || metadata.name`, …) are modelled on
string-valued JSON fields; a non-string value where the code expects a
string is modelled as an absent field (the code would either propagate a
non-string or throw into the surrounding catch — no claim exercises such
inputs). -/

structure ModPackageInfo where
  name : Option String
  title : Option String
  description : Option String
  version : Option String
  author : Option String
  tags : Option (List String)
deriving DecidableEq

/-- JavaScript property read on a parsed JSON object: last duplicate key
wins. -/
def getField (fields : List (String × Json)) (key : String) : Option Json :=
  ((fields.filter fun kv => kv.1 == key).getLast?).map (·.2)

/-- JavaScript truthiness of a JSON value. -/
def jsonTruthy : Json → Bool
  | .str s => s ≠ ""
  | .num _ m _ => m ≠ 0
  | .obj _ => true
  | .arr _ => true
  | .bool b => b
  | .null => false

/-- A string-valued field. -/
def asStr : Option Json → Option String
  | some (.str s) => some s
  | _ => none

/-- JavaScript `a || b` on possibly-absent JSON values. -/
def jsOrJson (a b : Option Json) : Option Json :=
  match a with
  | some x => if jsonTruthy x then some x else b
  | none => b

/-- The string elements of a JSON array field. -/
def strListOfJson : Json → Option (List String)
  | .arr l =>
    some (l.filterMap fun j =>
      match j with
      | .str s => some s
      | _ => none)
  | _ => none

/-- The fields of a JSON object (a primitive has no own properties). -/
def jsonFields : Json → List (String × Json)
  | .obj f => f
  | _ => []

/-- The `ModPackageInfo` built from a parsed metadata object
(part_004:331-341 and 142-149): `title` formatted from `title || name`,
`author` as the string or its `name` sub-field, `tags` from
`tags || keywords`. -/
def mkInfoFromFields (fields : List (String × Json)) : ModPackageInfo where
  name := asStr (getField fields "name")
  title :=
    match jsOrJson (getField fields "title") (getField fields "name") with
    | some (.str s) => some ⟨formatModName s.data⟩
    | _ => none
  description := asStr (getField fields "description")
  version := asStr (getField fields "version")
  author :=
    match getField fields "author" with
    | some (.str s) => some s
    | some (.obj f2) => asStr (getField f2 "name")
    | _ => none
  tags :=
    (jsOrJson (getField fields "tags") (getField fields "keywords")).bind
      strListOfJson

/-- `parsePackageJson` (part_004:133-154): strict JSON parse, reject a
falsy `name`, then the standard fields (`keywords` as tags). -/
def parsePackageJson (data : List Char) : Option ModPackageInfo :=
  match jsonParse data with
  | some (.obj fields) =>
    let nameJ := getField fields "name"
    if (match nameJ with
        | some j => jsonTruthy j
        | none => false) then
      some
        { name := asStr nameJ
          title :=
            match jsOrJson (getField fields "title") nameJ with
            | some (.str s) => some ⟨formatModName s.data⟩
            | _ => none
          description := asStr (getField fields "description")
          version := asStr (getField fields "version")
          author :=
            match getField fields "author" with
            | some (.str s) => some s
            | some (.obj f2) => asStr (getField f2 "name")
            | _ => none
          tags := (getField fields "keywords").bind strListOfJson }
    else none
  | some _ => none
  | none => none

/-! ## mod-parser — the regexes -/

/-- `\{` -/
def rLb : RE := .cls (.lit '\x7b')

/-- `\}` -/
def rRb : RE := .cls (.lit '\x7d')

/-- `\(` -/
def rLp : RE := .cls (.lit '(')

/-- `\)` -/
def rRp : RE := .cls (.lit ')')

/-- `:` -/
def rColon : RE := .cls (.lit ':')

/-- `[^}]*` -/
def rNotBraceStar : RE := .star true (.cls (.noneOf ['\x7d']))

/-- `["']` -/
def rQuote : RE := .cls (.oneOf ['"', '\''])

/-- `([^"']+)` as capture group `i`. -/
def rQuotedVal (i : Nat) : RE := .grp i (rPlus (.cls (.noneOf ['"', '\''])))

/-- `\{[^}]*(?:\{[^}]*\}[^}]*)*\}` — the brace-tolerant object matcher of
the metadata patterns. -/
def objRE : RE :=
  rSeq [rLb, rNotBraceStar,
    .star true (rSeq [rLb, rNotBraceStar, rRb, rNotBraceStar]), rRb]

/-- `([^}]*(?:\{[^}]*\}[^}]*)*)` — the same, capturing the inside
(Method 2's patterns). -/
def objInnerCap : RE :=
  .grp 1 (rSeq [rNotBraceStar,
    .star true (rSeq [rLb, rNotBraceStar, rRb, rNotBraceStar])])

/-- The five `getMetadata` surface syntaxes (part_004:265-276), each
capturing the returned object literal as group 1. -/
def metadataPatterns : List RE :=
  [rSeq [rLit "getMetadata", rWs, rColon, rWs, rLit "function", rWs, rLp,
      rWs, rRp, rWs, rLb, rWs, rLit "return", rWs, .grp 1 objRE],
    rSeq [rLit "getMetadata", rWs, rLp, rWs, rRp, rWs, rLb, rWs,
      rLit "return", rWs, .grp 1 objRE],
    rSeq [rLit "getMetadata", rWs, rColon, rWs, rLp, rWs, rRp, rWs,
      rLit "=>", rWs, rLb, rWs, rLit "return", rWs, .grp 1 objRE],
    rSeq [rLit "getMetadata", rWs, rColon, rWs, rLp, rWs, rRp, rWs,
      rLit "=>", rWs, rLp, rWs, .grp 1 objRE, rWs, rRp],
    rSeq [rLit "getMetadata", rWs, rColon, rWs, rLp, rWs, rRp, rWs,
      rLit "=>", rWs, .grp 1 objRE]]

/-- `(\{[^}]+\})\.name` tail shared by the webpack inline-JSON patterns. -/
def webpackTail : RE :=
  rSeq [.star false (.cls .any), rLit "name", rWs, rColon, rWs,
    .grp 1 (rSeq [rLb, rPlus (.cls (.noneOf ['\x7d'])), rRb]),
    .cls (.lit '.'), rLit "name"]

/-- The webpack inline-JSON patterns of fallback Method 1
(part_004:403-407). -/
def webpackJsonPatterns : List RE :=
  [rSeq [rLit "getMetadata", rWs, rColon, rWs, rLit "function", rWs, rLp,
      rWs, rRp, rWs, rLb, rWs, rLit "return", rWs, rLp, rWs, rLb,
      webpackTail],
    rSeq [rLit "getMetadata", rWs, rLp, rWs, rRp, rWs, rLb, rWs,
      rLit "return", rWs, rLp, rWs, rLb, webpackTail],
    rSeq [rLit "getMetadata", rWs, rColon, rWs, rLp, rWs, rRp, rWs,
      rLit "=>", rWs, .opt rLp, rWs, rLb, webpackTail]]

/-- The full-object patterns of fallback Method 2 (part_004:433-437),
capturing the object's inside as group 1. -/
def fullMatchPatterns : List RE :=
  [rSeq [rLit "getMetadata", rWs, rColon, rWs, rLit "function", rWs, rLp,
      rWs, rRp, rWs, rLb, rWs, rLit "return", rWs, rLb, objInnerCap, rRb],
    rSeq [rLit "getMetadata", rWs, rLp, rWs, rRp, rWs, rLb, rWs,
      rLit "return", rWs, rLb, objInnerCap, rRb],
    rSeq [rLit "getMetadata", rWs, rColon, rWs, rLp, rWs, rRp, rWs,
      rLit "=>", rWs, .opt rLp, rWs, rLb, objInnerCap, .opt rRb, rWs,
      .opt rRp]]

/-- `name\s*:\s*["']([^"']+)["']`. -/
def nameFieldRE : RE :=
  rSeq [rLit "name", rWs, rColon, rWs, rQuote, rQuotedVal 1, rQuote]

/-- `version\s*:\s*["']([^"']+)["']`. -/
def versionFieldRE : RE :=
  rSeq [rLit "version", rWs, rColon, rWs, rQuote, rQuotedVal 1, rQuote]

/-- `description\s*:\s*["']([^"']+)["']`. -/
def descriptionFieldRE : RE :=
  rSeq [rLit "description", rWs, rColon, rWs, rQuote, rQuotedVal 1, rQuote]

/-- `author\s*:\s*\{[^}]*name\s*:\s*["']([^"']+)["']`. -/
def authorNameFieldRE : RE :=
  rSeq [rLit "author", rWs, rColon, rWs, rLb, rNotBraceStar, rLit "name",
    rWs, rColon, rWs, rQuote, rQuotedVal 1, rQuote]

/-- Method 3's last-resort pattern
`name\s*:\s*["']([^"']+)["'][^}]*version\s*:\s*["']([^"']+)["']`. -/
def basicNameVersionRE : RE :=
  rSeq [rLit "name", rWs, rColon, rWs, rQuote, rQuotedVal 1, rQuote,
    rNotBraceStar, rLit "version", rWs, rColon, rWs, rQuote, rQuotedVal 2,
    rQuote]

/-- Method 0's anchor `\{"name"\s*:`. -/
def jsonAnchorRE : RE :=
  rSeq [rLb, .cls (.lit '"'), rLit "name", .cls (.lit '"'), rWs, rColon]

/-- `\bNAME\s*\(` — one recognized API call. -/
def mkCallRE (name : String) : RE :=
  rSeq [.wb, rLit name, rWs, rLp]

/-- The API-call catalog of `detectTagsFromModJs` (part_004:160-230), in
source order. -/
def tagMap : List (RE × String) :=
  [(mkCallRE "addItem", "Items"),
    (mkCallRE "addItemToShop", "Items"),
    (mkCallRE "addItemToGuild", "Items"),
    (mkCallRE "addItemToAuction", "Items"),
    (mkCallRE "addItemToFallenStar", "Items"),
    (mkCallRE "addEnchantment", "Items"),
    (mkCallRE "addUncutStone", "Items"),
    (mkCallRE "addManual", "Items"),
    (mkCallRE "addRecipeToLibrary", "Crafting"),
    (mkCallRE "addRecipeToResearch", "Crafting"),
    (mkCallRE "addResearchableRecipe", "Crafting"),
    (mkCallRE "addCraftingTechnique", "Crafting"),
    (mkCallRE "addHarmonyType", "Crafting"),
    (mkCallRE "addCraftingMissionsToLocation", "Crafting"),
    (mkCallRE "addCharacter", "Characters"),
    (mkCallRE "addLocation", "Locations"),
    (mkCallRE "linkLocations", "Locations"),
    (mkCallRE "registerRootLocation", "Locations"),
    (mkCallRE "addBuildingsToLocation", "Locations"),
    (mkCallRE "addEnemiesToLocation", "Combat"),
    (mkCallRE "addFallenStar", "Combat"),
    (mkCallRE "addPuppetType", "Combat"),
    (mkCallRE "addTechnique", "Techniques"),
    (mkCallRE "addBreakthrough", "Cultivation"),
    (mkCallRE "addDestiny", "Cultivation"),
    (mkCallRE "addTriggeredEvent", "Events"),
    (mkCallRE "addCalendarEvent", "Events"),
    (mkCallRE "addEventsToLocation", "Events"),
    (mkCallRE "addExplorationEventsToLocation", "Events"),
    (mkCallRE "addMapEventsToLocation", "Events"),
    (mkCallRE "addQuest", "Quests"),
    (mkCallRE "addMissionsToLocation", "Quests"),
    (mkCallRE "addMusic", "Audio"),
    (mkCallRE "addSfx", "Audio"),
    (mkCallRE "addRoom", "Housing"),
    (mkCallRE "addGuild", "Guilds"),
    (mkCallRE "addDualCultivationTechnique", "Relationships"),
    (mkCallRE "addPlayerSprite", "Cosmetics"),
    (mkCallRE "addScreen", "UI"),
    (mkCallRE "addCustomFont", "UI"),
    (mkCallRE "setCustomFontFamily", "UI"),
    (mkCallRE "addThemeOverride", "UI"),
    (mkCallRE "addBirthBackground", "Character Creation"),
    (mkCallRE "addChildBackground", "Character Creation"),
    (mkCallRE "addTeenBackground", "Character Creation"),
    (mkCallRE "addAlternativeStart", "Alternative Start"),
    (mkCallRE "addTranslation", "Translation"),
    (mkCallRE "addMineChamber", "Exploration"),
    (mkCallRE "addMysticalRegionBlessing", "Exploration"),
    (mkCallRE "addCrop", "Farming")]

/-- `detectTagsFromModJs` (part_004:159-244): each matching call pattern
contributes its category once, in catalog order. -/
def detectTagsFromModJs (data : List Char) : List String :=
  tagMap.foldl
    (fun acc pt =>
      if reTest pt.1 data && !(acc.contains pt.2) then acc ++ [pt.2] else acc)
    []

/-! ## mod-parser — the extraction pipeline -/

/-- `parseMetadataObject` (part_004:297-346): locate the captured object
text in the source (`indexOf`), run the brace-nesting walk to recover the
complete literal, quote bare keys, convert single quotes, `JSON.parse`, and
build the record.  A `null` parse result would throw on field access into
the surrounding catch. -/
def parseMetadataObject (data captured : List Char) : Option ModPackageInfo :=
  match jsIndexOf data captured with
  | none => none
  | some start =>
    let completeMetadata := braceWalkAux (data.drop start) 0
    let cleaned :=
      singleQuoteToDouble
        (quoteKeys (completeMetadata.length + 1) completeMetadata)
    match jsonParse cleaned with
    | some (.obj fields) => some (mkInfoFromFields fields)
    | some .null => none
    | some _ => some (mkInfoFromFields [])
    | none => none

/-- Fallback Method 0 (part_004:353-399): inline JSON anchored at
`{"name":` within 3000 characters after `getMetadata`, brace-walked up to
5000 characters, parsed directly, and accepted only with a truthy
`name`. -/
def fallbackMethod0 (data : List Char) : Option ModPackageInfo :=
  match jsIndexOf data "getMetadata".data with
  | none => none
  | some pos =>
    let searchArea := (data.drop pos).take 3000
    match reFind jsonAnchorRE searchArea with
    | none => none
    | some (start, _, _) =>
      let jsonStr := braceWalkN 5000 (data.drop (pos + start)) 0
      match jsonParse jsonStr with
      | some (.obj fields) =>
        if (match getField fields "name" with
            | some j => jsonTruthy j
            | none => false) then
          some (mkInfoFromFields fields)
        else none
      | _ => none

/-- Fallback Method 1 (part_004:401-430): the webpack
`name: {...}.name` inline-JSON patterns; a parse failure (or a `null`
that would throw on field access) falls through to the next pattern. -/
def fallbackMethod1 (data : List Char) : Option ModPackageInfo :=
  webpackJsonPatterns.foldl
    (fun acc p =>
      match acc with
      | some r => some r
      | none =>
        match reFind p data with
        | none => none
        | some (_, _, caps) =>
          match capStr data caps 1 with
          | none => none
          | some cap =>
            match jsonParse cap with
            | some .null => none
            | some j => some (mkInfoFromFields (jsonFields j))
            | none => none)
    none

/-- Fallback Method 2 (part_004:432-465): the first full-object pattern
that matches yields `fullMatch[0]`, against which the individual field
regexes are run; the record is returned even when every field capture
missed. -/
def fallbackMethod2 (data : List Char) : Option ModPackageInfo :=
  match fullMatchPatterns.foldl
      (fun acc p =>
        match acc with
        | some m => some m
        | none => reFind p data)
      none with
  | none => none
  | some m =>
    let matched0 := sub data m.1 m.2.1
    let nameM :=
      (reFind nameFieldRE matched0).bind fun t => capStr matched0 t.2.2 1
    let versionM :=
      (reFind versionFieldRE matched0).bind fun t => capStr matched0 t.2.2 1
    let descriptionM :=
      (reFind descriptionFieldRE matched0).bind fun t =>
        capStr matched0 t.2.2 1
    let authorM :=
      (reFind authorNameFieldRE matched0).bind fun t =>
        capStr matched0 t.2.2 1
    some
      { name := nameM.map fun l => (⟨l⟩ : String)
        title := nameM.map fun l => (⟨formatModName l⟩ : String)
        description := descriptionM.map fun l => (⟨l⟩ : String)
        version := versionM.map fun l => (⟨l⟩ : String)
        author := authorM.map fun l => (⟨l⟩ : String)
        tags := none }

/-- Fallback Method 3 (part_004:467-479): a bare `name … version` pair
anywhere in the text. -/
def fallbackMethod3 (data : List Char) : Option ModPackageInfo :=
  match reFind basicNameVersionRE data with
  | none => none
  | some (_, _, caps) =>
    match capStr data caps 1, capStr data caps 2 with
    | some nm, some ver =>
      some
        { name := some ⟨nm⟩
          title := some ⟨formatModName nm⟩
          description := none
          version := some ⟨ver⟩
          author := none
          tags := none }
    | _, _ => none

/-- `extractWithFallbackMethods` (part_004:351-487): Methods 0-3 in
order. -/
def extractWithFallbackMethods (data : List Char) : Option ModPackageInfo :=
  match fallbackMethod0 data with
  | some r => some r
  | none =>
    match fallbackMethod1 data with
    | some r => some r
    | none =>
      match fallbackMethod2 data with
      | some r => some r
      | none => fallbackMethod3 data

/-- The empty metadata record (`{}` — the base `mergeDetectedTags` starts
from when structural parsing failed). -/
def emptyInfo : ModPackageInfo := ⟨none, none, none, none, none, none⟩

/-- `parseModJsContent` (part_004:249-292): detect tags unconditionally,
try the five metadata patterns (a pattern whose parse fails falls through
to the next), then the fallback chain; merge the detected tags into
whatever resulted (a non-empty tag set alone is a usable result). -/
def parseModJsContent (data : List Char) : Option ModPackageInfo :=
  let detectedTags := detectTagsFromModJs data
  let mergeDetectedTags : Option ModPackageInfo → Option ModPackageInfo :=
    fun result =>
      if detectedTags.isEmpty then result
      else
        let base := result.getD emptyInfo
        let existing := base.tags.getD []
        let merged :=
          (existing ++ detectedTags).foldl
            (fun acc t => if acc.contains t then acc else acc ++ [t]) []
        some { base with tags := some merged }
  let viaPatterns :=
    metadataPatterns.foldl
      (fun acc p =>
        match acc with
        | some r => some r
        | none =>
          match reFind p data with
          | none => none
          | some (_, _, caps) =>
            match capStr data caps 1 with
            | none => none
            | some cap => parseMetadataObject data cap)
      none
  match viaPatterns with
  | some r => mergeDetectedTags (some r)
  | none => mergeDetectedTags (extractWithFallbackMethods data)

/-! ## mod-parser — archive entry scan (`extractModMetadata`) -/

/-- `String.prototype.endsWith`, kernel-evaluable. -/
def jsEndsWith (s suffix : String) : Bool :=
  suffix.data.isSuffixOf s.data

/-- One archive entry: its full name (directories end in `/`) and decoded
text content. -/
structure ZipEntry where
  fileName : String
  content : String
deriving DecidableEq

/-- The candidate tests of the entry handler (part_004:69-72):
`entry.fileName.endsWith('mod.js')`, `endsWith('package.json')`, and the
directory test `/\/$/`. -/
def entryIsModJs (e : ZipEntry) : Bool := jsEndsWith e.fileName "mod.js"

/-- `entry.fileName.endsWith('package.json')`. -/
def entryIsPackageJson (e : ZipEntry) : Bool :=
  jsEndsWith e.fileName "package.json"

/-- `/\/$/.test(entry.fileName)`. -/
def entryIsDir (e : ZipEntry) : Bool := jsEndsWith e.fileName "/"

/-- The entry scan of `extractModMetadata` (part_004:68-107): entries are
read in order and each matching non-directory entry's content is assigned
to `modJsContent` or `packageJsonContent`, later entries overwriting
earlier ones. -/
def scanEntries (entries : List ZipEntry) : Option String × Option String :=
  entries.foldl
    (fun acc e =>
      if (entryIsModJs e || entryIsPackageJson e) && !entryIsDir e then
        if entryIsModJs e then (some e.content, acc.2)
        else (acc.1, some e.content)
      else acc)
    (none, none)

/-- `extractModMetadata` (part_004:21-128): scan the entries, try a truthy
`mod.js` content first, fall back to a truthy `package.json` content. -/
def extractModMetadata (entries : List ZipEntry) : Option ModPackageInfo :=
  let scanned := scanEntries entries
  let viaModJs :=
    match scanned.1 with
    | some d => if d = "" then none else parseModJsContent d.data
    | none => none
  match viaModJs with
  | some r => some r
  | none =>
    match scanned.2 with
    | some d => if d = "" then none else parsePackageJson d.data
    | none => none

/-! ## C3 — the sky-lotus extraction scenario -/

/-- The scenario's `mod.js` text: the traditional-form metadata accessor
with a nested `author` object, plus one `addItem(...)` call. -/
def skyLotusModJs : String :=
  "module.exports = \x7b\n  getMetadata: function()\x7b return \x7bname:'sky-lotus', version:'1.2.0', description:'Adds lotus items', author:\x7bname:'Jane'\x7d\x7d; \x7d,\n  init: function(api)\x7b api.addItem('lotus'); \x7d\n\x7d;\n"

set_option maxRecDepth 100000 in
/-- C3: extraction from an archive holding that `mod.js` recovers exactly
name `sky-lotus`, title `Sky Lotus`, version `1.2.0`, description
`Adds lotus items`, author `Jane` (the nested object recovered whole by the
brace-nesting walk), and tags `["Items"]` (inferred from the `addItem`
call). -/
theorem sky_lotus_scenario :
    extractModMetadata [⟨"mod.js", skyLotusModJs⟩] =
      some ⟨some "sky-lotus", some "Sky Lotus", some "Adds lotus items",
        some "1.2.0", some "Jane", some ["Items"]⟩ := by
  decide

/-! ## C8 — entry selection -/

/-- The name after the last `/` of an entry path. -/
def baseNameOf (s : String) : String :=
  ⟨s.data.foldl (fun acc c => if c = '/' then [] else acc ++ [c]) []⟩

/-- Modelled from the spec's words for C8 (the claimed selection): among
non-directory entries, the **first** entry named `mod.js` and, separately,
the first named `package.json`, by entry order. -/
def claimedScanEntries (entries : List ZipEntry) :
    Option String × Option String :=
  ((entries.find? fun e =>
      !entryIsDir e && baseNameOf e.fileName == "mod.js").map (·.content),
    (entries.find? fun e =>
      !entryIsDir e && baseNameOf e.fileName == "package.json").map
      (·.content))

/-- C8 counterexample: with entries `mod.js` (content A), `mod.js`
(content B), `xmod.js` (content C), the code selects C — the **last**
entry whose name merely **ends with** `mod.js` — while the claim's
first-match-by-name rule selects A. -/
theorem entry_selection_counterexample :
    scanEntries [⟨"mod.js", "A"⟩, ⟨"mod.js", "B"⟩, ⟨"xmod.js", "C"⟩] =
      (some "C", none) ∧
    claimedScanEntries
        [⟨"mod.js", "A"⟩, ⟨"mod.js", "B"⟩, ⟨"xmod.js", "C"⟩] =
      (some "A", none) ∧
    scanEntries [⟨"mod.js", "A"⟩, ⟨"mod.js", "B"⟩, ⟨"xmod.js", "C"⟩] ≠
      claimedScanEntries
        [⟨"mod.js", "A"⟩, ⟨"mod.js", "B"⟩, ⟨"xmod.js", "C"⟩] := by
  refine ⟨by decide, by decide, by decide⟩

/-- The selection the code implements: the content of the last entry
satisfying `p`, in entry order (later assignments overwrite earlier
ones). -/
def lastMatch (p : ZipEntry → Bool) : List ZipEntry → Option String
  | [] => none
  | e :: rest =>
    match lastMatch p rest with
    | some c => some c
    | none => if p e then some e.content else none

/-- The `mod.js` slot's predicate: name ends with `mod.js`, not a
directory. -/
def slotModJs (e : ZipEntry) : Bool := entryIsModJs e && !entryIsDir e

/-- The `package.json` slot's predicate: name ends with `package.json` but
not with `mod.js`, not a directory. -/
def slotPackageJson (e : ZipEntry) : Bool :=
  entryIsPackageJson e && !entryIsModJs e && !entryIsDir e

theorem scanEntries_foldl_characterized (l : List ZipEntry)
    (a b : Option String) :
    l.foldl
      (fun acc e =>
        if (entryIsModJs e || entryIsPackageJson e) && !entryIsDir e then
          if entryIsModJs e then (some e.content, acc.2)
          else (acc.1, some e.content)
        else acc)
      (a, b) =
      ((match lastMatch slotModJs l with
        | some c => some c
        | none => a),
        (match lastMatch slotPackageJson l with
        | some c => some c
        | none => b)) := by
  induction l generalizing a b with
  | nil => simp [lastMatch]
  | cons e rest ih =>
    rw [List.foldl_cons]
    cases hm : entryIsModJs e <;> cases hp : entryIsPackageJson e <;>
      cases hd : entryIsDir e <;>
      simp only [hm, hp, hd, Bool.false_or, Bool.true_or, Bool.or_self,
        Bool.not_true, Bool.not_false, Bool.and_true, Bool.and_false,
        Bool.true_and, Bool.false_and, if_true, if_false, ite_true,
        ite_false, Bool.false_eq_true, ih, lastMatch, slotModJs,
        slotPackageJson] <;>
      rcases lastMatch slotModJs rest with - | c1 <;>
      rcases lastMatch slotPackageJson rest with - | c2 <;>
      simp

/-- C8 (amended): for every archive, the extractor assigns — among
non-directory entries, in entry order with later matches overwriting
earlier ones — the content of the **last** entry whose name **ends with**
`mod.js` to the `mod.js` slot and the last whose name ends with
`package.json` (and not with `mod.js`) to the `package.json` slot, and
parses exactly those two contents (`mod.js` first, `package.json` as
fallback). -/
theorem scanEntries_last_suffix_match (entries : List ZipEntry) :
    scanEntries entries =
      (lastMatch slotModJs entries, lastMatch slotPackageJson entries) ∧
    extractModMetadata entries =
      (match
        (match lastMatch slotModJs entries with
          | some d => if d = "" then none else parseModJsContent d.data
          | none => none) with
      | some r => some r
      | none =>
        match lastMatch slotPackageJson entries with
        | some d => if d = "" then none else parsePackageJson d.data
        | none => none) := by
  have hscan : scanEntries entries =
      (lastMatch slotModJs entries, lastMatch slotPackageJson entries) := by
    unfold scanEntries
    rw [scanEntries_foldl_characterized]
    rcases lastMatch slotModJs entries with - | c1 <;>
      rcases lastMatch slotPackageJson entries with - | c2 <;> simp
  refine ⟨hscan, ?_⟩
  unfold extractModMetadata
  rw [hscan]

end ModUploader
